import Mathlib

/-!
Shallow embedding of the GitHub → Asana issue-sync worker
(`github-asana-issue-sync-cloudflare`), covering:

* the attachment filename hash and image-attachment deduplication
  (`src/lib/util/asana-attachment-helper.js`),
* the image-processing loop of a render pass,
* the Asana-HTML cleanup chain and table flattening
  (`src/lib/util/markdown-to-asana-html.js`),
* custom-field construction and the three-tier task resolution
  (`src/lib/asana-task-ensure.js`),
* the unified `IssueSync.handleEvent` protocol and the
  `IssueCoordinator` retry loop (durable object).

External collaborators (the Asana HTTP API, the image fetch, the
markdown renderer `micromark`) are modelled as oracles/worlds: each
network call's outcome is a field of a world structure, so the
embedded control flow is a pure function of the world.
-/

namespace GhAsanaSync

/-! ## JavaScript primitive semantics -/

/-- JS string truthiness: a string is truthy iff it is nonempty.
`Env` fields use `""` for an unset variable, matching `undefined`'s
falsiness. -/
def jsTruthy (s : String) : Bool := s ≠ ""

/-- Truncation to a signed 32-bit integer, the effect of JS `x & x`
(and of `<<`) on a number. -/
def toInt32 (n : Int) : Int :=
  let m := n % (4294967296 : Int)
  if m < 2147483648 then m else m - 4294967296

/-- UTF-16 code units of a string, as read by JS `charCodeAt`. -/
def utf16Units (s : String) : List Nat :=
  (s.data.map fun c =>
    let n := c.toNat
    if n < 65536 then [n]
    else [55296 + (n - 65536) / 1024, 56320 + (n - 65536) % 1024]).flatten

/-- One step of the rolling hash in `generateHashedFilename`:
`hash = ((hash << 5) - hash) + char; hash = hash & hash`. -/
def jsHashStep (h : Int) (c : Nat) : Int :=
  toInt32 (toInt32 (h * 32) - h + (c : Int))

/-- The 32-bit rolling hash over a string's UTF-16 code units,
starting from 0 (`asana-attachment-helper.js`, lines 12–17). -/
def jsHash (s : String) : Int :=
  (utf16Units s).foldl jsHashStep 0

/-- Membership in the regex class `\s` (ASCII part). -/
def isWsChar (c : Char) : Bool :=
  c = ' ' || c = '\t' || c = '\n' || c = '\r' || c = '\x0b' || c = '\x0c'

/-- JS `String.prototype.trim` (ASCII whitespace). -/
def jsTrim (s : String) : String :=
  String.mk (((s.data.dropWhile isWsChar).reverse.dropWhile isWsChar).reverse)

/-- JS `String.prototype.padStart(n, c)`. -/
def padStart (n : Nat) (c : Char) (s : String) : String :=
  String.mk (List.replicate (n - s.length) c) ++ s

/-- JS `String.prototype.padEnd(n, ' ')` (used for table cells). -/
def padEnd (s : String) (n : Nat) : String :=
  s ++ String.mk (List.replicate (n - s.length) ' ')

/-! ## Attachment filename hashing (`generateHashedFilename`) -/

/-- `altText.replace(/[^a-zA-Z0-9]/g, '-').toLowerCase()`. -/
def sanitizeAltText (alt : String) : String :=
  String.mk ((alt.data.map fun c =>
    if ('a' ≤ c ∧ c ≤ 'z') ∨ ('A' ≤ c ∧ c ≤ 'Z') ∨ ('0' ≤ c ∧ c ≤ '9')
    then c else '-').map Char.toLower)

/-- File extension chosen from the content type (`extensionMap`,
default `.png`). -/
def extensionForContentType (contentType : String) : String :=
  if contentType = "image/jpeg" then ".jpg"
  else if contentType = "image/jpg" then ".jpg"
  else if contentType = "image/png" then ".png"
  else if contentType = "image/gif" then ".gif"
  else if contentType = "image/webp" then ".webp"
  else if contentType = "image/svg+xml" then ".svg"
  else ".png"

/-- `Math.abs(hash).toString(16).padStart(8, '0')`. -/
def hashHexString (h : Int) : String :=
  padStart 8 '0' (String.mk (Nat.toDigits 16 h.natAbs))

/-- `generateHashedFilename(imageUrl, contentType, altText)`
(`asana-attachment-helper.js`, lines 10–38).  The rolling hash is
taken over `imageUrl` alone; the alt text forms the sanitized base
name and the content type picks the extension.  `none` models the
`null` passed by `processImagesInHtml` when the image has no alt. -/
def generateHashedFilename (imageUrl contentType : String)
    (altText : Option String) : String :=
  let hashString := hashHexString (jsHash imageUrl)
  let baseName :=
    match altText with
    | some a => if a ≠ "" then sanitizeAltText a else "image"
    | none => "image"
  baseName ++ "-" ++ hashString ++ extensionForContentType contentType

/-! ## Attachment state and deduplication
(`asana-attachment-helper.js`, current iteration, lines 40–128) -/

/-- An Asana attachment as listed with
`opt_fields: 'gid,name,resource_subtype'`. -/
structure AsanaAttachment where
  gid : String
  name : String
  resource_subtype : String
  deriving DecidableEq, Repr

/-- Return value of `createImageFileAttachment`:
`{ attachment, wasCreated, filename }`. -/
structure AttachmentResult where
  attachment : AsanaAttachment
  wasCreated : Bool
  filename : String
  deriving DecidableEq, Repr

/-- Outcomes of the three network calls made per image: `fetch`
(download, yielding the response content type),
`createFileAttachment` (upload, yielding the new attachment's gid),
and `getAttachmentsForObject` (the dedup check's listing).  The
task's true attachment list is the threaded state; `listingError st`
is `some e` when the listing call throws with the attachments being
`st`, and `none` when it returns them.  All are deterministic per
argument within one world. -/
structure ImageWorld where
  download : String → Except String String
  upload : String → Except String String
  listingError : List AsanaAttachment → Option String

/-- `findExistingImageAttachment` (lines 47–77): list the task's
attachments and return the first whose `name` equals the hashed
filename and whose `resource_subtype` is `'asana'` (lines 61–63).
The listing sits in a `try`/`catch` that returns `null` on error —
"Continue with upload if check fails" (lines 73–76) — so a failed
listing reports no match and the caller uploads regardless of what
is on the task. -/
def findExistingImageAttachment (w : ImageWorld)
    (attachments : List AsanaAttachment)
    (hashedFilename : String) : Option AsanaAttachment :=
  match w.listingError attachments with
  | some _ => none
  | none =>
    attachments.find? fun att =>
      att.name == hashedFilename && att.resource_subtype == "asana"

/-- `createImageFileAttachment` (lines 87–128) over an explicit
attachment-list state: download the image, derive the hashed
filename, reuse a matching existing attachment, otherwise upload a
new one.  The dedup lookup can report no match because its listing
call failed (`findExistingImageAttachment`), in which case the
upload happens even if a matching attachment is on the task.  A
successful upload appends an attachment bearing the hashed filename;
Asana gives native file uploads `resource_subtype = 'asana'`. -/
def createImageFileAttachmentSt (w : ImageWorld)
    (attachments : List AsanaAttachment) (imageUrl : String)
    (imageName : Option String) :
    Except String (AttachmentResult × List AsanaAttachment) :=
  match w.download imageUrl with
  | .error e => .error e
  | .ok contentType =>
    let hashedFilename := generateHashedFilename imageUrl contentType imageName
    match findExistingImageAttachment w attachments hashedFilename with
    | some existing =>
      .ok (⟨existing, false, hashedFilename⟩, attachments)
    | none =>
      match w.upload imageUrl with
      | .error e => .error e
      | .ok newGid =>
        let att : AsanaAttachment := ⟨newGid, hashedFilename, "asana"⟩
        .ok (⟨att, true, hashedFilename⟩, attachments ++ [att])

/-! ## The per-render image-processing loop
(`processImagesInHtml`, current iteration, lines 253–348) -/

/-- One image found by the `<img … src=…>` scan: the full matched
tag, its `src`, its alt text, and whether it sits inside a table. -/
structure ImgInfo where
  fullMatch : String
  src : String
  alt : String
  isInTable : Bool
  deriving DecidableEq, Repr

/-- Split a character list at the first occurrence of a pattern:
the part before the match and the part after it. -/
def findSplit : List Char → List Char → Option (List Char × List Char)
  | hay, pat =>
    if pat.isPrefixOf hay then some ([], hay.drop pat.length)
    else
      match hay with
      | [] => none
      | c :: cs => (findSplit cs pat).map fun p => (c :: p.1, p.2)

/-- JS `String.prototype.replace(pattern, repl)` with a string
pattern: replace the first occurrence only (`$`-substitution
patterns in the replacement are out of scope). -/
def replaceFirst (s pat repl : String) : String :=
  match findSplit s.data pat.data with
  | some p => String.mk p.1 ++ repl ++ String.mk p.2
  | none => s

/-- `image.alt || 'Image'`: link text of the degradation link. -/
def imageLinkText (alt : String) : String :=
  if alt ≠ "" then alt else "Image"

/-- The plain text link an image degrades to:
`<a href="${src}">[${linkText}]</a>`. -/
def imageLink (src alt : String) : String :=
  "<a href=\"" ++ src ++ "\">[" ++ imageLinkText alt ++ "]</a>"

/-- The Asana inline reference an uploaded image is replaced by:
`<img data-asana-gid="${gid}">`. -/
def asanaImgTag (gid : String) : String :=
  "<img data-asana-gid=\"" ++ gid ++ "\">"

/-- Mutable loop state of `processImagesInHtml`: `updatedContent`
plus the task's attachment list and the two "created in this pass"
tracking lists. -/
structure ProcessState where
  content : String
  attachments : List AsanaAttachment
  createdAttachmentGids : List String
  createdAttachmentFilenames : List String
  deriving DecidableEq, Repr

/-- `image.alt || null`: the alt argument handed to
`createImageFileAttachment`. -/
def jsAltOpt (alt : String) : Option String :=
  if alt ≠ "" then some alt else none

/-- One iteration of the image loop (lines 290–329): table images
become links; other images are resolved through the attachment
pipeline, a thrown error degrading that image to a text link. -/
def processOneImage (w : ImageWorld) (st : ProcessState)
    (img : ImgInfo) : ProcessState :=
  if img.isInTable then
    let repl := imageLink img.src img.alt
    { st with content := replaceFirst st.content img.fullMatch repl }
  else
    match createImageFileAttachmentSt w st.attachments img.src (jsAltOpt img.alt) with
    | .ok res =>
      let newGids :=
        if res.1.wasCreated then st.createdAttachmentGids ++ [res.1.attachment.gid]
        else st.createdAttachmentGids
      let newNames :=
        if res.1.wasCreated then st.createdAttachmentFilenames ++ [res.1.filename]
        else st.createdAttachmentFilenames
      let repl := asanaImgTag res.1.attachment.gid
      { content := replaceFirst st.content img.fullMatch repl
        attachments := res.2
        createdAttachmentGids := newGids
        createdAttachmentFilenames := newNames }
    | .error _ =>
      let repl := imageLink img.src img.alt
      { st with content := replaceFirst st.content img.fullMatch repl }

/-- The `for (const image of images)` loop of `processImagesInHtml`,
threading the loop state through every image. -/
def processImagesLoop (w : ImageWorld) (images : List ImgInfo)
    (st : ProcessState) : ProcessState :=
  images.foldl (processOneImage w) st

/-- `processImagesInHtml` on the extracted image list: start from
the given HTML and the task's current attachments and run the loop
(the trailing dimension-settling delay and story cleanup have no
effect on the returned content). -/
def processImagesInHtml (w : ImageWorld) (htmlContent : String)
    (taskAttachments : List AsanaAttachment)
    (images : List ImgInfo) : ProcessState :=
  processImagesLoop w images ⟨htmlContent, taskAttachments, [], []⟩

/-! ## Task resolution (`asana-task-ensure.js`, lines 20–281) -/

/-- An Asana task as the resolver sees it: gid, name, permalink and
the custom fields (field gid, text value) returned by the project
listing. -/
structure AsanaTask where
  gid : String
  name : String
  permalink_url : String
  custom_fields : List (String × String)
  deriving DecidableEq, Repr

/-- A value written into a task's custom field: plain text, one enum
option gid, or a list of multi-enum option gids. -/
inductive FieldValue where
  | text (s : String)
  | enumGid (g : String)
  | enumGids (gs : List String)
  deriving DecidableEq, Repr

/-- The worker's environment variables; `""` stands for an unset
(falsy) variable. -/
structure Env where
  ASANA_PROJECT_ID : String
  REPOSITORY_FIELD_ID : String
  CREATOR_FIELD_ID : String
  GITHUB_URL_FIELD_ID : String
  ISSUE_TYPE_FIELD_ID : String
  LABELS_FIELD_ID : String
  deriving DecidableEq, Repr

/-- Outcomes of the Asana API calls one `ensureTaskExists` run can
make, with the project fixed by the configuration:
`getTask`, the full project task list behind `getTasksForProject`
(the embedding applies the request's `limit`), `createTask`
(a function of name and custom fields), `updateTask`, and the three
custom-field option resolutions performed by `buildCustomFields`
(`getCustomFieldForProject` for repository and issue type,
`getMultiEnumOptionsForField` for labels — each called once per run
with fixed arguments, so one outcome each). -/
structure AsanaWorld where
  getTask : String → Except String AsanaTask
  projectTasks : Except String (List AsanaTask)
  createTask : String → List (String × FieldValue) → Except String AsanaTask
  updateTask : String → List (String × FieldValue) → Except String Unit
  repoOptionOutcome : Except String (Option String)
  typeOptionOutcome : Except String (Option String)
  labelOptionsOutcome : Except String (List String)

/-- `buildCustomFields` (lines 218–281): assemble the custom-field
payload.  Each of the three option-valued fields is guarded by its
own `try`/`catch`: a resolution error is logged and that field alone
is skipped.  The creator and GitHub-URL fields are plain strings and
cannot fail.  Fields appear in the code's insertion order. -/
def buildCustomFields (w : AsanaWorld) (env : Env)
    (repository creator githubUrl type_ : String)
    (labels : List String) : List (String × FieldValue) :=
  let repoPart :=
    if jsTruthy env.REPOSITORY_FIELD_ID && jsTruthy (jsTrim env.REPOSITORY_FIELD_ID)
        && jsTruthy repository then
      match w.repoOptionOutcome with
      | .ok (some optionGid) => [(env.REPOSITORY_FIELD_ID, FieldValue.enumGid optionGid)]
      | .ok none => []
      | .error _ => []
    else []
  let creatorPart :=
    if jsTruthy env.CREATOR_FIELD_ID && jsTruthy creator then
      [(env.CREATOR_FIELD_ID, FieldValue.text ("@" ++ creator))]
    else []
  let urlPart :=
    if jsTruthy env.GITHUB_URL_FIELD_ID && jsTruthy githubUrl then
      [(env.GITHUB_URL_FIELD_ID, FieldValue.text githubUrl)]
    else []
  let typePart :=
    if jsTruthy env.ISSUE_TYPE_FIELD_ID && jsTruthy type_ then
      match w.typeOptionOutcome with
      | .ok (some optionGid) => [(env.ISSUE_TYPE_FIELD_ID, FieldValue.enumGid optionGid)]
      | .ok none => []
      | .error _ => []
    else []
  let labelsPart :=
    if jsTruthy env.LABELS_FIELD_ID && !labels.isEmpty then
      match w.labelOptionsOutcome with
      | .ok optionGids =>
        if !optionGids.isEmpty then [(env.LABELS_FIELD_ID, FieldValue.enumGids optionGids)]
        else []
      | .error _ => []
    else []
  repoPart ++ creatorPart ++ urlPart ++ typePart ++ labelsPart

/-- `verifyTaskExists` (lines 69–86): fetch the task by gid with
`opt_fields: 'gid,name'`; any error yields `null`; on success the
code returns the `{gid, name}` projection. -/
def verifyTaskExists (w : AsanaWorld) (taskGid : String) : Option AsanaTask :=
  match w.getTask taskGid with
  | .ok task =>
    if jsTruthy task.gid then
      some { gid := task.gid, name := task.name, permalink_url := "", custom_fields := [] }
    else none
  | .error _ => none

/-- `getTasksForProject` with a `limit` parameter returns the first
page only: at most the first `limit` tasks of the project
(`asana-api-direct.js`, lines 49–78; the caller never requests the
next page). -/
def getTasksForProject (w : AsanaWorld) (limit : Nat) :
    Except String (List AsanaTask) :=
  w.projectTasks.map (·.take limit)

/-- The inner match of the search loop: some custom field of the
task has the configured GitHub-URL field gid and exactly the wanted
text value. -/
def taskMatchesGithubUrl (fieldGid githubUrl : String)
    (task : AsanaTask) : Bool :=
  task.custom_fields.any fun f => f.1 == fieldGid && f.2 == githubUrl

/-- `findTaskByGithubUrl` (lines 96–135): without a configured
`GITHUB_URL_FIELD_ID` the search is skipped; the request asks for
`limit: 100` and only the returned page is scanned; a request error
is caught and yields `null` so that resolution continues with
creation. -/
def findTaskByGithubUrl (w : AsanaWorld) (env : Env)
    (githubUrl : String) : Option AsanaTask :=
  if !jsTruthy env.GITHUB_URL_FIELD_ID then none
  else
    match getTasksForProject w 100 with
    | .error _ => none
    | .ok tasks => tasks.find? (taskMatchesGithubUrl env.GITHUB_URL_FIELD_ID githubUrl)

/-- `updateTaskCustomFields` (lines 182–205): build the payload and,
when nonempty, write it with `updateTask`; a write error is
re-thrown (fatal), an empty payload skips the write. -/
def updateTaskCustomFields (w : AsanaWorld) (env : Env) (taskGid : String)
    (repository creator githubUrl type_ : String) (labels : List String) :
    Except String Unit :=
  let customFields := buildCustomFields w env repository creator githubUrl type_ labels
  if !customFields.isEmpty then w.updateTask taskGid customFields
  else .ok ()

/-- `createTaskWithCustomFields` (lines 150–168): build the payload
and create the task; a create error is re-thrown. -/
def createTaskWithCustomFields (w : AsanaWorld) (env : Env)
    (repository creator githubUrl type_ : String) (labels : List String)
    (taskName : String) : Except String AsanaTask :=
  let customFields := buildCustomFields w env repository creator githubUrl type_ labels
  w.createTask taskName customFields

/-- Refresh an existing task's identity custom fields, then return
it (the `if (existingTask)` branch of `ensureTaskExists`,
lines 45–48). -/
def refreshAndReturn (w : AsanaWorld) (env : Env)
    (repository creator githubUrl type_ : String) (labels : List String)
    (t : AsanaTask) : Except String AsanaTask :=
  match updateTaskCustomFields w env t.gid repository creator githubUrl type_ labels with
  | .ok _ => .ok t
  | .error e => .error e

/-- Tier 1 of `ensureTaskExists` (lines 26–34): verify a truthy
cached gid, yielding the verified task or `null`. -/
def cachedTaskLookup (w : AsanaWorld) (cachedTaskGid : Option String) :
    Option AsanaTask :=
  match cachedTaskGid with
  | some g => if jsTruthy g then verifyTaskExists w g else none
  | none => none

/-- `ensureTaskExists` (lines 20–61), continued: three tiers in the
code's order. -/
def ensureTaskExists (w : AsanaWorld) (env : Env)
    (githubUrl repository creator type_ : String) (labels : List String)
    (taskName : String) (cachedTaskGid : Option String) :
    Except String AsanaTask :=
  let fromCache : Option AsanaTask := cachedTaskLookup w cachedTaskGid
  let existingTask : Option AsanaTask :=
    match fromCache with
    | some t => some t
    | none => findTaskByGithubUrl w env githubUrl
  match existingTask with
  | some t => refreshAndReturn w env repository creator githubUrl type_ labels t
  | none => createTaskWithCustomFields w env repository creator githubUrl type_ labels taskName

/-! ## The unified event handler (`IssueSync.handleEvent`,
current iteration of `issue-sync.js`, lines 299–355 of the
concatenated sources) -/

/-- The GitHub entity a payload carries (`payload.issue` or
`payload.pull_request`): its html URL, open/closed state and the
author's login. -/
structure GhSource where
  html_url : String
  state : String
  user_login : String
  deriving DecidableEq, Repr

/-- The webhook payload fields the handler reads.
`cachedAsanaTaskGid` is the `_cachedAsanaTaskGid` slot the
coordinator may attach. -/
structure Payload where
  issue : Option GhSource
  pull_request : Option GhSource
  repository_name : String
  action : String
  cachedAsanaTaskGid : Option String
  deriving DecidableEq, Repr

/-- What `issueToTask` assembles from the payload: the task name,
the label names, and the markdown narrative. -/
structure TaskContent where
  name : String
  labels : List String
  markdownContent : String
  deriving DecidableEq, Repr

/-- The handler's response record
`{status, action, result, taskGid}`. -/
structure HandleResult where
  status : String
  action : String
  result : String
  taskGid : String
  deriving DecidableEq, Repr

/-- Outcomes of the collaborator calls one `handleEvent` run makes:
the resolver's world, the `issueToTask` content assembly, the
description update (returning the permalink), and
`markTaskComplete`.

`markCompleteResult` is modelled from the spec: `markTaskComplete`
(`asana-task-completed.js`, imported but absent from the sources)
sets the task's completion flag to the boolean it is given and
returns the value used as the response's `result`. -/
structure SyncWorld where
  asana : AsanaWorld
  issueToTaskResult : Except String TaskContent
  updateDescriptionResult : Except String String
  markCompleteResult : Bool → Except String String

/-- The `Unable to find GitHub … URL` error text. -/
def noUrlError (isPullRequest : Bool) : String :=
  if isPullRequest then "Unable to find GitHub pull request URL"
  else "Unable to find GitHub issue URL"

/-- The response's action label: `payload.action || eventType`,
specialised for created comments. -/
def responseActionName (eventType : String) (isComment : Bool)
    (action : String) : String :=
  if isComment && action == "created" then
    if eventType == "pull_request_review_comment" then "pr_comment_created"
    else "comment_created"
  else if jsTruthy action then action
  else eventType

/-- `IssueSync.handleEvent(eventType, payload)`: classify the event,
resolve the task (step 1), push the rendered description (step 2),
and for non-comment events set the completion flag from the GitHub
state (step 3).  The second component instruments the run with the
completion value written by `markTaskComplete` (`none` when the flag
is never written).  The code's step-3 guard
`action === "closed" || action === "reopened" ||
shouldBeCompleted !== undefined` is always true because
`shouldBeCompleted` is a boolean, never `undefined`. -/
def handleEvent (w : SyncWorld) (env : Env) (eventType : String)
    (payload : Payload) : Except String HandleResult × Option Bool :=
  let isPullRequest :=
    eventType == "pull_request" || eventType == "pull_request_review_comment"
  let isComment :=
    eventType == "issue_comment" || eventType == "pull_request_review_comment"
  let source? := if isPullRequest then payload.pull_request else payload.issue
  match source? with
  | none => (.error (noUrlError isPullRequest), none)
  | some source =>
    if !jsTruthy source.html_url then (.error (noUrlError isPullRequest), none)
    else
      let githubUrl := source.html_url
      match w.issueToTaskResult with
      | .error e => (.error e, none)
      | .ok taskContent =>
        let ensured := ensureTaskExists w.asana env githubUrl
          payload.repository_name source.user_login
          (if isPullRequest then "PR" else "Issue")
          taskContent.labels taskContent.name payload.cachedAsanaTaskGid
        match ensured with
        | .error e => (.error e, none)
        | .ok task =>
          match w.updateDescriptionResult with
          | .error e => (.error e, none)
          | .ok _ =>
            let actionName := responseActionName eventType isComment payload.action
            if !isComment then
              let shouldBeCompleted := source.state == "closed"
              let stepThreeGuard :=
                payload.action == "closed" || payload.action == "reopened" || true
              if stepThreeGuard then
                match w.markCompleteResult shouldBeCompleted with
                | .error e => (.error e, some shouldBeCompleted)
                | .ok res =>
                  (.ok ⟨"processed", actionName, res, task.gid⟩, some shouldBeCompleted)
              else
                (.ok ⟨"processed", actionName, task.permalink_url, task.gid⟩, none)
            else
              (.ok ⟨"processed", actionName, task.permalink_url, task.gid⟩, none)

/-! ## The coordinator retry shell (`IssueCoordinator.handleEvent`,
durable object, lines 38–87) -/

/-- Truthiness of the optional cached task gid
(`if (this.cachedTaskGid) …`). -/
def jsTruthyOpt (o : Option String) : Bool :=
  match o with
  | some s => jsTruthy s
  | none => false

/-- `const retryDelays = [5000, 10000]` — 5 s, then 10 s. -/
def retryDelays : List Nat := [5000, 10000]

deriving instance DecidableEq for Except

/-- Observable run of the coordinator's retry loop: the surfaced
outcome, the cached task gid after the run, how many times the sync
orchestrator body was invoked, and the waits performed between
attempts (milliseconds). -/
structure CoordResult where
  outcome : Except String HandleResult
  finalCachedTaskGid : Option String
  invocations : Nat
  delays : List Nat
  deriving DecidableEq, Repr

/-- The `for (let attempt = 0; attempt <= maxRetries; attempt++)`
loop: on success, persist the task gid when truthy and different
from the cached one, and return; on failure at the last attempt
(`attempt === maxRetries`, i.e. no retries left) re-throw; otherwise
wait `retryDelays[attempt]` and try again.  The remaining-retries
count `maxRetries - attempt` is the structural argument; the loop is
entered with `attempt = 0` and the full retry budget. -/
def coordinatorLoop (f : Nat → Except String HandleResult)
    (cached : Option String) : Nat → Nat → CoordResult
  | retriesLeft, attempt =>
    match f attempt with
    | .ok result =>
      let newCached :=
        if jsTruthy result.taskGid && !(some result.taskGid == cached) then
          some result.taskGid
        else cached
      ⟨.ok result, newCached, 1, []⟩
    | .error e =>
      match retriesLeft with
      | 0 => ⟨.error e, cached, 1, []⟩
      | n + 1 =>
        let rest := coordinatorLoop f cached n (attempt + 1)
        ⟨rest.outcome, rest.finalCachedTaskGid, rest.invocations + 1,
          retryDelays.getD attempt 0 :: rest.delays⟩

/-- The body of one attempt: construct the API client and
`IssueSync` (whose constructor throws without `ASANA_PROJECT_ID`),
attach the cached task gid to the payload when truthy, and run the
unified handler against that attempt's world. -/
def coordinatorAttempt (worlds : Nat → SyncWorld) (env : Env)
    (eventType : String) (payload : Payload) (cached : Option String)
    (attempt : Nat) : Except String HandleResult :=
  if !jsTruthy env.ASANA_PROJECT_ID then
    .error "ASANA_PROJECT_ID environment variable is required"
  else
    let payload' :=
      if jsTruthyOpt cached then { payload with cachedAsanaTaskGid := cached }
      else payload
    (handleEvent (worlds attempt) env eventType payload').1

/-- `IssueCoordinator.handleEvent`: `maxRetries = 2` — up to
`1 + maxRetries = 3` attempts, starting at attempt 0 with 2 retries
left. -/
def issueCoordinatorHandleEvent (worlds : Nat → SyncWorld) (env : Env)
    (eventType : String) (payload : Payload)
    (cached : Option String) : CoordResult :=
  coordinatorLoop (coordinatorAttempt worlds env eventType payload cached) cached 2 0

/-! ## Markdown post-processing
(`markdown-to-asana-html.js`).  `micromark` (an external CommonMark
renderer) produces the raw HTML; the embedding covers the cleanup
chain of `renderMarkdown` (lines 90–125) and the table flattening of
`convertTableToPreformatted` (lines 12–74), as pure string passes.
Each JS `replace(regex, …)` becomes a left-to-right scan that
rewrites non-overlapping matches without rescanning replacements,
exactly the `/g` semantics. -/

/-- A token of the simple patterns used by the cleanup regexes:
a literal, `\s*`, `\s+`, or `\n+`. -/
inductive PatTok where
  | lit (s : List Char)
  | ws0
  | ws1
  | nl1

/-- Match a token sequence at the start of the input, returning the
remainder (greedy whitespace, as the regexes behave here). -/
def matchToks : List PatTok → List Char → Option (List Char)
  | [], rest => some rest
  | .lit l :: ps, rest =>
    if l.isPrefixOf rest then matchToks ps (rest.drop l.length) else none
  | .ws0 :: ps, rest => matchToks ps (rest.dropWhile isWsChar)
  | .ws1 :: ps, rest =>
    let r := rest.dropWhile isWsChar
    if r.length < rest.length then matchToks ps r else none
  | .nl1 :: ps, rest =>
    let r := rest.dropWhile (· = '\n')
    if r.length < rest.length then matchToks ps r else none

/-- Left-to-right global replacement, fuelled (structural recursion
so that proofs can evaluate it): at each position, if the matcher
fires, emit its replacement and continue after the match; otherwise
keep the character.  The guard only rules out an empty-width match;
every pattern used here consumes input, so fuel = input length
always suffices. -/
def scanReplaceFuel (m : List Char → Option (List Char × List Char)) :
    Nat → List Char → List Char
  | _, [] => []
  | 0, s => s
  | fuel + 1, c :: cs =>
    match m (c :: cs) with
    | some p =>
      if p.2.length < (c :: cs).length then p.1 ++ scanReplaceFuel m fuel p.2
      else p.1 ++ p.2
    | none => c :: scanReplaceFuel m fuel cs

/-- Left-to-right global replacement — the `/g` regex semantics. -/
def scanReplace (m : List Char → Option (List Char × List Char))
    (s : List Char) : List Char :=
  scanReplaceFuel m s.length s

/-- Global replacement of a token pattern by a fixed string. -/
def replaceAllPat (toks : List PatTok) (repl : List Char)
    (s : List Char) : List Char :=
  scanReplace (fun t => (matchToks toks t).map fun rest => (repl, rest)) s

/-- Matcher of `<(\/?)h[d]>\s*` for the digits in `digits`,
reporting whether it is a closing tag. -/
def matchHeading (digits : List Char) (s : List Char) :
    Option (Bool × List Char) :=
  match s with
  | '<' :: '/' :: 'h' :: d :: '>' :: r =>
    if d ∈ digits then some (true, r.dropWhile isWsChar) else none
  | '<' :: 'h' :: d :: '>' :: r =>
    if d ∈ digits then some (false, r.dropWhile isWsChar) else none
  | _ => none

/-- `/(<(\/?)h[digits]>)\s*/g → <$1h(level)>`: collapse heading tags
to the given target level, dropping trailing whitespace. -/
def headingPass (digits : List Char) (level : List Char)
    (s : List Char) : List Char :=
  scanReplace (fun t =>
    (matchHeading digits t).map fun p =>
      ((if p.1 then '<' :: '/' :: level ++ ['>'] else '<' :: level ++ ['>']), p.2)) s

/-- Matcher of `href="([^"]+)"` whose value does not start with
`http://` or `https://`; the rewrite prefixes `https://`. -/
def matchHrefRewrite (s : List Char) : Option (List Char × List Char) :=
  if "href=\"".data.isPrefixOf s then
    let after := s.drop 6
    let v := after.takeWhile (· ≠ '"')
    match after.drop v.length with
    | '"' :: rest =>
      if v ≠ [] ∧ ¬ "http://".data.isPrefixOf v ∧ ¬ "https://".data.isPrefixOf v then
        some ("href=\"https://".data ++ v ++ ['"'], rest)
      else none
    | _ => none
  else none

/-- Case-insensitive prefix test (the table regexes carry `/i`). -/
def isPrefixOfCI : List Char → List Char → Bool
  | [], _ => true
  | _ :: _, [] => false
  | p :: ps, c :: cs => p.toLower == c.toLower && isPrefixOfCI ps cs

/-- Split at the first case-insensitive occurrence of `pat`:
the part before the match and the part after it. -/
def findSplitCI : List Char → List Char → Option (List Char × List Char)
  | hay, pat =>
    if isPrefixOfCI pat hay then some ([], hay.drop pat.length)
    else
      match hay with
      | [] => none
      | c :: cs => (findSplitCI cs pat).map fun p => (c :: p.1, p.2)

/-- Split at the first case-insensitive occurrence of either
pattern, also returning the matched pattern's length. -/
def findSplitCIEither (pat1 pat2 : List Char) :
    List Char → Option (List Char × Nat × List Char)
  | [] =>
    if isPrefixOfCI pat1 [] then some ([], pat1.length, [])
    else if isPrefixOfCI pat2 [] then some ([], pat2.length, [])
    else none
  | c :: cs =>
    if isPrefixOfCI pat1 (c :: cs) then
      some ([], pat1.length, (c :: cs).drop pat1.length)
    else if isPrefixOfCI pat2 (c :: cs) then
      some ([], pat2.length, (c :: cs).drop pat2.length)
    else (findSplitCIEither pat1 pat2 cs).map fun p => (c :: p.1, p.2)

/-- Matcher of `openLit[^>]*>[\s\S]*?closeLit` (case-insensitive):
the non-greedy body ends at the first closing literal.  Returns the
full matched text and the remainder. -/
def matchTagBlock (openLit closeLit : List Char) (s : List Char) :
    Option (List Char × List Char) :=
  if isPrefixOfCI openLit s then
    let afterOpen := s.drop openLit.length
    let attrs := afterOpen.takeWhile (· ≠ '>')
    match afterOpen.drop attrs.length with
    | '>' :: body =>
      match findSplitCI body closeLit with
      | some p =>
        let total := openLit.length + attrs.length + 1 + p.1.length + closeLit.length
        some (s.take total, s.drop total)
      | none => none
    | _ => none
  else none

/-- Matcher of one table cell,
`<(th|td)[^>]*>[\s\S]*?<\/(th|td)>` (case-insensitive; the regex
lets the closing tag kind differ from the opening one). -/
def matchCell (s : List Char) : Option (List Char × List Char) :=
  if isPrefixOfCI "<th".data s || isPrefixOfCI "<td".data s then
    let afterOpen := s.drop 3
    let attrs := afterOpen.takeWhile (· ≠ '>')
    match afterOpen.drop attrs.length with
    | '>' :: body =>
      match findSplitCIEither "</th>".data "</td>".data body with
      | some p =>
        let total := 3 + attrs.length + 1 + p.1.length + p.2.1
        some (s.take total, s.drop total)
      | none => none
    | _ => none
  else none

/-- All non-overlapping matches of a matcher, scanning left to
right, fuelled like `scanReplaceFuel`. -/
def scanMatchesFuel (m : List Char → Option (List Char × List Char)) :
    Nat → List Char → List (List Char)
  | _, [] => []
  | 0, _ => []
  | fuel + 1, c :: cs =>
    match m (c :: cs) with
    | some p =>
      if p.2.length < (c :: cs).length then p.1 :: scanMatchesFuel m fuel p.2
      else [p.1]
    | none => scanMatchesFuel m fuel cs

/-- All non-overlapping matches, scanning left to right — JS
`String.prototype.match` with a `/g` regex. -/
def scanMatches (m : List Char → Option (List Char × List Char))
    (s : List Char) : List (List Char) :=
  scanMatchesFuel m s.length s

/-- First value of the (case-insensitive) attribute `nm`, quoted by
`"` or `'`, inside a tag's text. -/
def attrValue (tag nm : List Char) : Option (List Char) :=
  match findSplitCI tag (nm ++ ['=', '"']) with
  | some p =>
    let v := p.2.takeWhile (· ≠ '"')
    if (p.2.drop v.length).isPrefixOf ['"'] ∨ '"' ∈ p.2.drop v.length then some v else none
  | none =>
    match findSplitCI tag (nm ++ ['=', '\'']) with
    | some p =>
      let v := p.2.takeWhile (· ≠ '\'')
      if '\'' ∈ p.2.drop v.length then some v else none
    | none => none

/-- The in-cell image rewrite (lines 23–26): an `<img …>` tag with a
`src` becomes `[$alt]($src)` (alt defaulting to `Image`); without a
`src` none of the three cascaded regexes fire.  This abstracts the
regexes' attribute-order case split into one attribute lookup. -/
def imgTagToLink (tag : List Char) : Option (List Char) :=
  match attrValue tag "src".data with
  | some src =>
    if src ≠ [] then
      match attrValue tag "alt".data with
      | some alt => some ('[' :: alt ++ ']' :: '(' :: src ++ [')'])
      | none => some ("[Image](".data ++ src ++ [')'])
    else none
  | none => none

/-- Matcher replacing an `<img …>` tag (case-insensitive, closed by
`>`) with its link text, when it has a `src`. -/
def matchImgToLink (s : List Char) : Option (List Char × List Char) :=
  if isPrefixOfCI "<img".data s then
    let attrs := (s.drop 4).takeWhile (· ≠ '>')
    match (s.drop 4).drop attrs.length with
    | '>' :: rest =>
      match imgTagToLink (s.take (4 + attrs.length + 1)) with
      | some link => some (link, rest)
      | none => none
    | _ => none
  else none

/-- Matcher of `<[^>]*>`, used to strip the remaining tags from a
cell. -/
def matchAnyTag (s : List Char) : Option (List Char × List Char) :=
  match s with
  | '<' :: rest =>
    let attrs := rest.takeWhile (· ≠ '>')
    match rest.drop attrs.length with
    | '>' :: r => some ([], r)
    | _ => none
  | _ => none

/-- Cell-text extraction (lines 21–38): rewrite images to links,
strip the remaining tags, decode the five entities, and trim. -/
def cleanCellText (cell : List Char) : String :=
  let step1 := scanReplace matchImgToLink cell
  let step2 := scanReplace matchAnyTag step1
  let step3 := replaceAllPat [.lit "&lt;".data] ['<'] step2
  let step4 := replaceAllPat [.lit "&gt;".data] ['>'] step3
  let step5 := replaceAllPat [.lit "&amp;".data] ['&'] step4
  let step6 := replaceAllPat [.lit "&quot;".data] ['"'] step5
  let step7 := replaceAllPat [.lit "&#39;".data] ['\''] step6
  jsTrim (String.mk step7)

/-- Row extraction of `convertTableToPreformatted` (lines 13–44):
match `<tr…>…</tr>` blocks, match the cells of each, clean each
cell's text, and keep the rows that have at least one cell. -/
def extractTableRows (tableHtml : String) : List (List String) :=
  let rowMatches := scanMatches (matchTagBlock "<tr".data "</tr>".data) tableHtml.data
  (rowMatches.map fun row => (scanMatches matchCell row).map cleanCellText).filter
    (fun cells => !cells.isEmpty)

/-- `Array.prototype.join(sep)`. -/
def joinSep (sep : String) : List String → String
  | [] => ""
  | [x] => x
  | x :: y :: xs => x ++ sep ++ joinSep sep (y :: xs)

/-- The column-width accumulation step (lines 50–54):
`columnWidths[i] = Math.max(columnWidths[i] || 0, row[i].length)`.
The accumulator list grows to the longest row seen. -/
def updWidths : List Nat → List String → List Nat
  | ws, [] => ws
  | [], c :: cs => c.length :: updWidths [] cs
  | w :: ws, c :: cs => max w c.length :: updWidths ws cs

/-- Column widths of a table: the running maximum over all rows. -/
def columnWidthsOf (rows : List (List String)) : List Nat :=
  rows.foldl updWidths []

/-- The `paddedCells` of one row (lines 58–60): each cell
right-padded to its column width,
`cell.padEnd(columnWidths[cellIndex] || 0)`. -/
def formatRowCells (widths : List Nat) (row : List String) : List String :=
  row.mapIdx fun i cell => padEnd cell (widths.getD i 0)

/-- One formatted row (lines 57–62): the padded cells joined by
`' | '` and wrapped by `'| '` and `' |'`. -/
def formattedRow (widths : List Nat) (row : List String) : String :=
  "| " ++ joinSep " | " (formatRowCells widths row) ++ " |"

/-- The separator rule inserted after the header row (line 66):
per column, `width + 2` dashes, joined and wrapped by `'|'`. -/
def separatorLine (widths : List Nat) : String :=
  "|" ++ joinSep "|" (widths.map fun w => String.mk (List.replicate (w + 2) '-')) ++ "|"

/-- Formatting half of `convertTableToPreformatted` (lines 46–73):
empty tables yield `''`; otherwise each row is formatted and the
separator is appended to the header row when the table has more
than one row; rows are joined by newlines. -/
def formatTableRows (rows : List (List String)) : String :=
  if rows.isEmpty then ""
  else
    let columnWidths := columnWidthsOf rows
    let formattedRows := rows.mapIdx fun rowIndex row =>
      let fr := formattedRow columnWidths row
      if rowIndex = 0 ∧ 1 < rows.length then
        fr ++ "\n" ++ separatorLine columnWidths
      else fr
    joinSep "\n" formattedRows

/-- `convertTableToPreformatted(tableHtml)`: extract the rows, then
format them. -/
def convertTableToPreformatted (tableHtml : String) : String :=
  formatTableRows (extractTableRows tableHtml)

/-- The table pass of the cleanup chain (lines 107–110): each
`<table…>…</table>` block becomes `<pre>…</pre>` around its
flattened text, or disappears when the flattening is empty. -/
def tablePass (s : List Char) : List Char :=
  scanReplace (fun t =>
    (matchTagBlock "<table".data "</table>".data t).map fun p =>
      (let formattedTable := convertTableToPreformatted (String.mk p.1)
       if formattedTable ≠ "" then ("<pre>" ++ formattedTable ++ "</pre>").data
       else [], p.2)) s

/-- Matcher of `<pre><code[^>]*>([\s\S]*?)<\/code><\/pre>`; the
replacement drops one trailing newline from the captured code and
rewraps it in a bare `<pre>` (lines 112–116). -/
def matchPreCode (s : List Char) : Option (List Char × List Char) :=
  if "<pre><code".data.isPrefixOf s then
    let afterOpen := s.drop 10
    let attrs := afterOpen.takeWhile (· ≠ '>')
    match afterOpen.drop attrs.length with
    | '>' :: body =>
      match findSplitCI body "</code></pre>".data with
      | some p =>
        let code := p.1
        let trimmedCode :=
          if code ≠ [] ∧ code.getLast? = some '\n' then code.dropLast else code
        some ("<pre>".data ++ trimmedCode ++ "</pre>".data, p.2)
      | none => none
    | _ => none
  else none

/-- The cleanup chain of `renderMarkdown` applied to the HTML that
`micromark` produced (lines 97–125): the ten string passes, the
trim, the `<body>` wrapper and the `<hr>` newline cleanup, in the
code's order.  Image processing (the optional trailing step) is
modelled separately by `processImagesInHtml`. -/
def cleanRenderedHtml (rendered : String) : String :=
  let s1 := replaceAllPat [.lit "</p>".data, .ws0] "\n\n".data rendered.data
  let s2 := replaceAllPat [.lit "<br>".data, .ws0] "\n".data s1
  let s3 := replaceAllPat [.lit "<p>".data] [] s2
  let s4 := headingPass ['1', '2', '3'] "h1".data s3
  let s5 := headingPass ['4', '5', '6'] "h2".data s4
  let s6 := replaceAllPat
    [.lit "<input".data, .ws1, .lit "type=\"checkbox\"".data, .ws1,
     .lit "disabled=\"\"".data, .ws1, .lit "checked=\"\"".data, .ws0,
     .lit "/>".data] "[x]".data s5
  let s7 := replaceAllPat
    [.lit "<input".data, .ws1, .lit "type=\"checkbox\"".data, .ws1,
     .lit "disabled=\"\"".data, .ws0, .lit "/>".data] "[ ]".data s6
  let s8 := scanReplace matchHrefRewrite s7
  let s9 := tablePass s8
  let s10 := scanReplace matchPreCode s9
  let s11 := replaceAllPat [.lit "<blockquote>\n".data] "<blockquote>".data s10
  let s12 := replaceAllPat [.lit "\n</blockquote>".data] "</blockquote>".data s11
  let cleaned := jsTrim (String.mk s12)
  let final := "<body>" ++ cleaned ++ "</body>"
  String.mk (replaceAllPat [.lit "<hr>".data, .nl1] "<hr>".data final.data)

/-! # Theorems -/

/-! ## C8 — attachment filename hashing and deduplication -/

/-- The predicate `findExistingImageAttachment` filters by. -/
def attMatches (hashedFilename : String) (att : AsanaAttachment) : Bool :=
  att.name == hashedFilename && att.resource_subtype == "asana"

theorem findExistingImageAttachment_eq (w : ImageWorld)
    (attachments : List AsanaAttachment) (hashedFilename : String)
    (h : w.listingError attachments = none) :
    findExistingImageAttachment w attachments hashedFilename =
      attachments.find? (attMatches hashedFilename) := by
  unfold findExistingImageAttachment
  rw [h]
  rfl

theorem findExistingImageAttachment_of_listing_error (w : ImageWorld)
    (attachments : List AsanaAttachment) (hashedFilename : String) (e : String)
    (h : w.listingError attachments = some e) :
    findExistingImageAttachment w attachments hashedFilename = none := by
  unfold findExistingImageAttachment
  rw [h]

set_option maxRecDepth 100000 in
/-- C8 (counterexample).  The dedup lookup requires
`resource_subtype === 'asana'` in addition to the name match: with a
task whose attachment list holds an attachment bearing exactly the
hash-derived filename but a different resource subtype, the code
still uploads, so "an upload is performed only when no attachment
with that exact name already exists on the task" fails. -/
theorem upload_despite_existing_name_counterexample :
    (([⟨"1", generateHashedFilename "https://example.com/a.png" "image/png" none,
        "external"⟩] : List AsanaAttachment).any
      fun a => a.name == generateHashedFilename "https://example.com/a.png" "image/png" none) = true ∧
    createImageFileAttachmentSt
      ⟨fun _ => .ok "image/png", fun _ => .ok "900", fun _ => none⟩
      [⟨"1", generateHashedFilename "https://example.com/a.png" "image/png" none, "external"⟩]
      "https://example.com/a.png" none =
    .ok (⟨⟨"900", generateHashedFilename "https://example.com/a.png" "image/png" none, "asana"⟩,
          true, generateHashedFilename "https://example.com/a.png" "image/png" none⟩,
         [⟨"1", generateHashedFilename "https://example.com/a.png" "image/png" none, "external"⟩,
          ⟨"900", generateHashedFilename "https://example.com/a.png" "image/png" none, "asana"⟩]) := by
  constructor
  · decide
  · decide

/-- C8 (amended).  The attachment filename is
`generateHashedFilename` of the triple (source URL, content type,
alt text) — a deterministic function of the triple built around the
32-bit rolling hash of the URL.  The dedup check lists the task's
attachments and looks for that exact name with the native (`asana`)
resource subtype, a *failed listing* being caught and treated as "no
match" (so it uploads regardless of what is on the task).  When the
dedup check's listing calls succeed, an upload happens only when no
attachment with that exact name and `asana` subtype is on the task,
and a second identical render uploads nothing, leaves the attachment
list unchanged, and references the same attachment as the first
render. -/
theorem attachment_filename_deterministic_and_dedup
    (w : ImageWorld) (atts : List AsanaAttachment) (url ct : String)
    (alt : Option String) (hdl : w.download url = .ok ct)
    (hup : ∃ g, w.upload url = .ok g)
    (hlist : ∀ st, w.listingError st = none) :
    ∃ r1 atts1,
      createImageFileAttachmentSt w atts url alt = .ok (r1, atts1) ∧
      r1.filename = generateHashedFilename url ct alt ∧
      (r1.wasCreated = true →
        atts.find? (attMatches r1.filename) = none) ∧
      (r1.wasCreated = false → atts1 = atts) ∧
      createImageFileAttachmentSt w atts1 url alt =
        .ok (⟨r1.attachment, false, r1.filename⟩, atts1) := by
  obtain ⟨g, hg⟩ := hup
  cases hfind : findExistingImageAttachment w atts (generateHashedFilename url ct alt) with
  | some existing =>
    have h1 : createImageFileAttachmentSt w atts url alt =
        .ok (⟨existing, false, generateHashedFilename url ct alt⟩, atts) := by
      simp [createImageFileAttachmentSt, hdl, hfind]
    exact ⟨⟨existing, false, generateHashedFilename url ct alt⟩, atts,
      h1, rfl, by simp, fun _ => rfl, h1⟩
  | none =>
    have hfind' : atts.find? (attMatches (generateHashedFilename url ct alt)) = none := by
      rw [← findExistingImageAttachment_eq w atts _ (hlist atts)]
      exact hfind
    have h1 : createImageFileAttachmentSt w atts url alt =
        .ok (⟨⟨g, generateHashedFilename url ct alt, "asana"⟩, true,
              generateHashedFilename url ct alt⟩,
          atts ++ [⟨g, generateHashedFilename url ct alt, "asana"⟩]) := by
      simp [createImageFileAttachmentSt, hdl, hfind, hg]
    have hfind2 : findExistingImageAttachment w
        (atts ++ [⟨g, generateHashedFilename url ct alt, "asana"⟩])
        (generateHashedFilename url ct alt) =
        some ⟨g, generateHashedFilename url ct alt, "asana"⟩ := by
      rw [findExistingImageAttachment_eq w _ _ (hlist _)]
      rw [List.find?_append, hfind']
      simp [attMatches]
    have h2 : createImageFileAttachmentSt w
        (atts ++ [⟨g, generateHashedFilename url ct alt, "asana"⟩]) url alt =
        .ok (⟨⟨g, generateHashedFilename url ct alt, "asana"⟩, false,
              generateHashedFilename url ct alt⟩,
          atts ++ [⟨g, generateHashedFilename url ct alt, "asana"⟩]) := by
      simp [createImageFileAttachmentSt, hdl, hfind2]
    exact ⟨⟨⟨g, generateHashedFilename url ct alt, "asana"⟩, true,
        generateHashedFilename url ct alt⟩,
      atts ++ [⟨g, generateHashedFilename url ct alt, "asana"⟩],
      h1, rfl, fun _ => hfind', by simp, h2⟩

/-- C8 witness: the amended theorem applied at a concrete world
(downloads, uploads and listings all succeeding), task state and
image triple. -/
theorem attachment_filename_deterministic_and_dedup_witness :
    ∃ r1 atts1,
      createImageFileAttachmentSt
        ⟨fun _ => .ok "image/png", fun _ => .ok "900", fun _ => none⟩
        [] "https://example.com/a.png" (some "pic") = .ok (r1, atts1) ∧
      r1.filename =
        generateHashedFilename "https://example.com/a.png" "image/png" (some "pic") ∧
      (r1.wasCreated = true →
        ([] : List AsanaAttachment).find? (attMatches r1.filename) = none) ∧
      (r1.wasCreated = false → atts1 = []) ∧
      createImageFileAttachmentSt
        ⟨fun _ => .ok "image/png", fun _ => .ok "900", fun _ => none⟩
        atts1 "https://example.com/a.png" (some "pic") =
        .ok (⟨r1.attachment, false, r1.filename⟩, atts1) :=
  attachment_filename_deterministic_and_dedup
    ⟨fun _ => .ok "image/png", fun _ => .ok "900", fun _ => none⟩
    [] "https://example.com/a.png" "image/png" (some "pic") rfl ⟨"900", rfl⟩
    fun _ => rfl

/-! ## C9 — per-image failure degradation -/

/-- C9.  In one render pass, an image whose attachment pipeline
throws (download or upload error) is replaced — alone — by the plain
text link to its source URL, all other loop state unchanged; and the
loop then still processes every remaining image (no abort). -/
theorem image_failure_degrades_only_that_image
    (w : ImageWorld) (st : ProcessState) (img : ImgInfo) (rest : List ImgInfo)
    (hTable : img.isInTable = false)
    (hFail : ∃ e, createImageFileAttachmentSt w st.attachments img.src
      (jsAltOpt img.alt) = .error e) :
    processOneImage w st img =
      { st with content :=
          replaceFirst st.content img.fullMatch (imageLink img.src img.alt) } ∧
    processImagesLoop w (img :: rest) st =
      processImagesLoop w rest (processOneImage w st img) := by
  obtain ⟨e, he⟩ := hFail
  refine ⟨?_, rfl⟩
  simp [processOneImage, hTable, he]

/-- C9 witness: a concrete render pass whose first image download
fails with a 404; the image degrades to its link and the loop
continues with the second image. -/
theorem image_failure_degrades_only_that_image_witness :
    processOneImage ⟨fun _ => .error "HTTP 404", fun _ => .ok "1", fun _ => none⟩
        ⟨"<body><img src=\"https://x/a.png\" alt=\"pic\"></body>", [], [], []⟩
        ⟨"<img src=\"https://x/a.png\" alt=\"pic\">", "https://x/a.png", "pic", false⟩ =
      { content := replaceFirst "<body><img src=\"https://x/a.png\" alt=\"pic\"></body>"
            "<img src=\"https://x/a.png\" alt=\"pic\">" (imageLink "https://x/a.png" "pic"),
        attachments := [], createdAttachmentGids := [], createdAttachmentFilenames := [] } ∧
    processImagesLoop ⟨fun _ => .error "HTTP 404", fun _ => .ok "1", fun _ => none⟩
        (⟨"<img src=\"https://x/a.png\" alt=\"pic\">", "https://x/a.png", "pic", false⟩ ::
          [⟨"<img src=\"https://x/b.png\">", "https://x/b.png", "", false⟩])
        ⟨"<body><img src=\"https://x/a.png\" alt=\"pic\"></body>", [], [], []⟩ =
      processImagesLoop ⟨fun _ => .error "HTTP 404", fun _ => .ok "1", fun _ => none⟩
        [⟨"<img src=\"https://x/b.png\">", "https://x/b.png", "", false⟩]
        (processOneImage ⟨fun _ => .error "HTTP 404", fun _ => .ok "1", fun _ => none⟩
          ⟨"<body><img src=\"https://x/a.png\" alt=\"pic\"></body>", [], [], []⟩
          ⟨"<img src=\"https://x/a.png\" alt=\"pic\">", "https://x/a.png", "pic", false⟩) :=
  image_failure_degrades_only_that_image _ _ _ _ rfl ⟨"HTTP 404", rfl⟩

/-! ## C1 — three-tier task resolution -/

/-- C1.  `ensureTaskExists` follows the three tiers in order,
stopping at the first success: a verified cached hint wins no matter
what the search or creation would do; failing that, an exact
GitHub-URL match in the project wins no matter what creation would
do; failing both, a task is created.  Whenever tier 1 or tier 2
finds a task, its identity custom fields are refreshed
unconditionally before the task is returned
(`refreshAndReturn`). -/
theorem ensureTaskExists_three_tier
    (w : AsanaWorld) (env : Env) (githubUrl repository creator type_ : String)
    (labels : List String) (taskName : String) (cached : Option String) :
    (∀ t, cachedTaskLookup w cached = some t →
      ∀ pt ct, ensureTaskExists { w with projectTasks := pt, createTask := ct }
          env githubUrl repository creator type_ labels taskName cached =
        refreshAndReturn w env repository creator githubUrl type_ labels t) ∧
    (cachedTaskLookup w cached = none →
      ∀ t, findTaskByGithubUrl w env githubUrl = some t →
      ∀ ct, ensureTaskExists { w with createTask := ct }
          env githubUrl repository creator type_ labels taskName cached =
        refreshAndReturn w env repository creator githubUrl type_ labels t) ∧
    (cachedTaskLookup w cached = none →
      findTaskByGithubUrl w env githubUrl = none →
      ensureTaskExists w env githubUrl repository creator type_ labels taskName cached =
        createTaskWithCustomFields w env repository creator githubUrl type_ labels taskName) := by
  refine ⟨?_, ?_, ?_⟩
  · intro t ht pt ct
    have h' : cachedTaskLookup { w with projectTasks := pt, createTask := ct } cached
        = some t := ht
    simp [ensureTaskExists, h']
    rfl
  · intro hc t hf ct
    have hc' : cachedTaskLookup { w with createTask := ct } cached = none := hc
    have hf' : findTaskByGithubUrl { w with createTask := ct } env githubUrl = some t := hf
    simp [ensureTaskExists, hc', hf']
    rfl
  · intro hc hf
    simp [ensureTaskExists, hc, hf]

/-- C1 witness: a world whose `getTask` verifies the cached gid
`42`; resolution returns the refreshed cached task without
consulting search or creation. -/
theorem ensureTaskExists_three_tier_witness :
    ensureTaskExists
      ⟨fun g => if g == "42" then .ok ⟨"42", "T", "", []⟩ else .error "404",
        .ok [], fun n _ => .ok ⟨"new", n, "", []⟩, fun _ _ => .ok (),
        .ok none, .ok none, .ok []⟩
      ⟨"P", "", "", "", "", ""⟩ "https://github.com/o/r/issues/1" "r" "alice" "Issue"
      [] "task" (some "42") =
    refreshAndReturn
      ⟨fun g => if g == "42" then .ok ⟨"42", "T", "", []⟩ else .error "404",
        .ok [], fun n _ => .ok ⟨"new", n, "", []⟩, fun _ _ => .ok (),
        .ok none, .ok none, .ok []⟩
      ⟨"P", "", "", "", "", ""⟩ "r" "alice" "https://github.com/o/r/issues/1" "Issue"
      [] ⟨"42", "T", "", []⟩ :=
  (ensureTaskExists_three_tier
      ⟨fun g => if g == "42" then .ok ⟨"42", "T", "", []⟩ else .error "404",
        .ok [], fun n _ => .ok ⟨"new", n, "", []⟩, fun _ _ => .ok (),
        .ok none, .ok none, .ok []⟩
      ⟨"P", "", "", "", "", ""⟩ "https://github.com/o/r/issues/1" "r" "alice" "Issue"
      [] "task" (some "42")).1 ⟨"42", "T", "", []⟩ (by decide) _ _

/-! ## C5 — per-field failure tolerance -/

/-- C5.  A failing option resolution for the repository, issue-type
or labels custom field behaves exactly as if that field had resolved
to no option: the field alone is omitted from the payload, every
other field untouched; and the create path still creates the task
(field failures never turn resolution into an error — only the
create/update calls themselves can). -/
theorem custom_field_failure_skips_field_only
    (w : AsanaWorld) (env : Env) (repository creator githubUrl type_ : String)
    (labels : List String) (taskName : String) (cached : Option String)
    (e1 e2 e3 : String) :
    buildCustomFields { w with repoOptionOutcome := .error e1 }
        env repository creator githubUrl type_ labels =
      buildCustomFields { w with repoOptionOutcome := .ok none }
        env repository creator githubUrl type_ labels ∧
    buildCustomFields { w with typeOptionOutcome := .error e2 }
        env repository creator githubUrl type_ labels =
      buildCustomFields { w with typeOptionOutcome := .ok none }
        env repository creator githubUrl type_ labels ∧
    buildCustomFields { w with labelOptionsOutcome := .error e3 }
        env repository creator githubUrl type_ labels =
      buildCustomFields { w with labelOptionsOutcome := .ok [] }
        env repository creator githubUrl type_ labels ∧
    (cachedTaskLookup w cached = none →
      findTaskByGithubUrl w env githubUrl = none →
      ensureTaskExists w env githubUrl repository creator type_ labels taskName cached =
        w.createTask taskName
          (buildCustomFields w env repository creator githubUrl type_ labels)) := by
  refine ⟨rfl, rfl, rfl, fun hc hf => ?_⟩
  simp [ensureTaskExists, hc, hf, createTaskWithCustomFields]

/-- C5 witness: with every field configured and every option
resolution failing, the create path still creates the task, and the
payload keeps exactly the non-option (creator, GitHub-URL)
fields. -/
theorem custom_field_failure_skips_field_only_witness :
    ensureTaskExists
      ⟨fun _ => .error "404", .ok [], fun n _ => .ok ⟨"new", n, "", []⟩,
        fun _ _ => .ok (), .error "boom", .error "boom", .error "boom"⟩
      ⟨"P", "RF", "CF", "UF", "TF", "LF"⟩ "https://u" "repo" "alice" "Issue"
      ["bug"] "task" none =
    Except.ok ⟨"new", "task", "", []⟩ ∧
    buildCustomFields
      ⟨fun _ => .error "404", .ok [], fun n _ => .ok ⟨"new", n, "", []⟩,
        fun _ _ => .ok (), .error "boom", .error "boom", .error "boom"⟩
      ⟨"P", "RF", "CF", "UF", "TF", "LF"⟩ "repo" "alice" "https://u" "Issue" ["bug"] =
      [("CF", FieldValue.text "@alice"), ("UF", FieldValue.text "https://u")] :=
  ⟨((custom_field_failure_skips_field_only
      ⟨fun _ => .error "404", .ok [], fun n _ => .ok ⟨"new", n, "", []⟩,
        fun _ _ => .ok (), .error "boom", .error "boom", .error "boom"⟩
      ⟨"P", "RF", "CF", "UF", "TF", "LF"⟩ "repo" "alice" "https://u" "Issue"
      ["bug"] "task" none "x" "y" "z").2.2.2 (by decide) (by decide)).trans (by decide),
    by decide⟩

/-! ## C10 — the URL search reads one 100-task page -/

/-- C10.  The GitHub-URL search tier is fail-open and bounded: it
returns `null` when the URL field is unconfigured, when the request
errors, and whenever no task among the *first 100* of the project
matches — even if a matching task exists further in; and a `null`
search (with no cached hit) sends resolution to creation. -/
theorem findTaskByGithubUrl_first_page_only
    (w : AsanaWorld) (env : Env) (githubUrl repository creator type_ : String)
    (labels : List String) (taskName : String) (cached : Option String) :
    (jsTruthy env.GITHUB_URL_FIELD_ID = false →
      findTaskByGithubUrl w env githubUrl = none) ∧
    (∀ e, w.projectTasks = .error e → findTaskByGithubUrl w env githubUrl = none) ∧
    (∀ tasks, w.projectTasks = .ok tasks →
      (∀ t ∈ tasks.take 100,
        taskMatchesGithubUrl env.GITHUB_URL_FIELD_ID githubUrl t = false) →
      findTaskByGithubUrl w env githubUrl = none) ∧
    (cachedTaskLookup w cached = none →
      findTaskByGithubUrl w env githubUrl = none →
      ensureTaskExists w env githubUrl repository creator type_ labels taskName cached =
        createTaskWithCustomFields w env repository creator githubUrl type_ labels
          taskName) := by
  refine ⟨?_, ?_, ?_, ?_⟩
  · intro h
    simp [findTaskByGithubUrl, h]
  · intro e he
    cases hj : jsTruthy env.GITHUB_URL_FIELD_ID <;>
      simp [findTaskByGithubUrl, getTasksForProject, he, hj, Except.map]
  · intro tasks ht hall
    cases hj : jsTruthy env.GITHUB_URL_FIELD_ID <;>
      simp [findTaskByGithubUrl, getTasksForProject, ht, hj, Except.map]
    exact hall
  · intro hc hf
    simp [ensureTaskExists, hc, hf]

/-- C10 witness: a project of 101 tasks whose only URL match is the
101st; the search misses it and resolution creates a new task. -/
theorem findTaskByGithubUrl_first_page_only_witness :
    findTaskByGithubUrl
      ⟨fun _ => .error "404",
        .ok (List.replicate 100 ⟨"d", "", "", []⟩ ++ [⟨"match", "", "", [("F", "U")]⟩]),
        fun n _ => .ok ⟨"new", n, "", []⟩, fun _ _ => .ok (), .ok none, .ok none, .ok []⟩
      ⟨"P", "", "", "F", "", ""⟩ "U" = none ∧
    ensureTaskExists
      ⟨fun _ => .error "404",
        .ok (List.replicate 100 ⟨"d", "", "", []⟩ ++ [⟨"match", "", "", [("F", "U")]⟩]),
        fun n _ => .ok ⟨"new", n, "", []⟩, fun _ _ => .ok (), .ok none, .ok none, .ok []⟩
      ⟨"P", "", "", "F", "", ""⟩ "U" "r" "alice" "Issue" [] "task" none =
    createTaskWithCustomFields
      ⟨fun _ => .error "404",
        .ok (List.replicate 100 ⟨"d", "", "", []⟩ ++ [⟨"match", "", "", [("F", "U")]⟩]),
        fun n _ => .ok ⟨"new", n, "", []⟩, fun _ _ => .ok (), .ok none, .ok none, .ok []⟩
      ⟨"P", "", "", "F", "", ""⟩ "r" "alice" "U" "Issue" [] "task" :=
  ⟨(findTaskByGithubUrl_first_page_only _ _ _ "r" "alice" "Issue" [] "task" none).2.2.1
      _ rfl (by decide),
    (findTaskByGithubUrl_first_page_only _ _ _ "r" "alice" "Issue" [] "task" none).2.2.2
      rfl ((findTaskByGithubUrl_first_page_only _ _ _ "r" "alice" "Issue" [] "task"
        none).2.2.1 _ rfl (by decide))⟩

/-! ## C3 — completion flag policy -/

/-- C3.  For the non-comment event types (`issues`,
`pull_request`), every successful run writes the completion flag,
with value true exactly when the GitHub entity's state is `closed`
(false for `open`); for the comment event types (`issue_comment`,
`pull_request_review_comment`) the completion flag is never written,
whatever the oracles do. -/
theorem completion_flag_policy (w : SyncWorld) (env : Env) (payload : Payload) :
    (∀ src r, payload.issue = some src →
      (handleEvent w env "issues" payload).1 = .ok r →
      (handleEvent w env "issues" payload).2 = some (src.state == "closed")) ∧
    (∀ src r, payload.pull_request = some src →
      (handleEvent w env "pull_request" payload).1 = .ok r →
      (handleEvent w env "pull_request" payload).2 = some (src.state == "closed")) ∧
    (handleEvent w env "issue_comment" payload).2 = none ∧
    (handleEvent w env "pull_request_review_comment" payload).2 = none := by
  refine ⟨?_, ?_, ?_, ?_⟩
  · intro src r hsrc hok
    cases hurl : jsTruthy src.html_url with
    | false => simp [handleEvent, hsrc, hurl] at hok
    | true =>
      cases hic : w.issueToTaskResult with
      | error e => simp [handleEvent, hsrc, hurl, hic] at hok
      | ok tc =>
        cases hen : ensureTaskExists w.asana env src.html_url payload.repository_name
            src.user_login "Issue" tc.labels tc.name payload.cachedAsanaTaskGid with
        | error e => simp [handleEvent, hsrc, hurl, hic, hen] at hok
        | ok task =>
          cases hud : w.updateDescriptionResult with
          | error e => simp [handleEvent, hsrc, hurl, hic, hen, hud] at hok
          | ok perm =>
            cases hmc : w.markCompleteResult (src.state == "closed") with
            | error e => simp [handleEvent, hsrc, hurl, hic, hen, hud, hmc]
            | ok res => simp [handleEvent, hsrc, hurl, hic, hen, hud, hmc]
  · intro src r hsrc hok
    cases hurl : jsTruthy src.html_url with
    | false => simp [handleEvent, hsrc, hurl] at hok
    | true =>
      cases hic : w.issueToTaskResult with
      | error e => simp [handleEvent, hsrc, hurl, hic] at hok
      | ok tc =>
        cases hen : ensureTaskExists w.asana env src.html_url payload.repository_name
            src.user_login "PR" tc.labels tc.name payload.cachedAsanaTaskGid with
        | error e => simp [handleEvent, hsrc, hurl, hic, hen] at hok
        | ok task =>
          cases hud : w.updateDescriptionResult with
          | error e => simp [handleEvent, hsrc, hurl, hic, hen, hud] at hok
          | ok perm =>
            cases hmc : w.markCompleteResult (src.state == "closed") with
            | error e => simp [handleEvent, hsrc, hurl, hic, hen, hud, hmc]
            | ok res => simp [handleEvent, hsrc, hurl, hic, hen, hud, hmc]
  · cases hsrc : payload.issue with
    | none => simp [handleEvent, hsrc]
    | some src =>
      cases hurl : jsTruthy src.html_url with
      | false => simp [handleEvent, hsrc, hurl]
      | true =>
        cases hic : w.issueToTaskResult with
        | error e => simp [handleEvent, hsrc, hurl, hic]
        | ok tc =>
          cases hen : ensureTaskExists w.asana env src.html_url payload.repository_name
              src.user_login "Issue" tc.labels tc.name payload.cachedAsanaTaskGid with
          | error e => simp [handleEvent, hsrc, hurl, hic, hen]
          | ok task =>
            cases hud : w.updateDescriptionResult <;>
              simp [handleEvent, hsrc, hurl, hic, hen, hud]
  · cases hsrc : payload.pull_request with
    | none => simp [handleEvent, hsrc]
    | some src =>
      cases hurl : jsTruthy src.html_url with
      | false => simp [handleEvent, hsrc, hurl]
      | true =>
        cases hic : w.issueToTaskResult with
        | error e => simp [handleEvent, hsrc, hurl, hic]
        | ok tc =>
          cases hen : ensureTaskExists w.asana env src.html_url payload.repository_name
              src.user_login "PR" tc.labels tc.name payload.cachedAsanaTaskGid with
          | error e => simp [handleEvent, hsrc, hurl, hic, hen]
          | ok task =>
            cases hud : w.updateDescriptionResult <;>
              simp [handleEvent, hsrc, hurl, hic, hen, hud]

/-- C3 witness: a closed-issue event on a fresh task writes
completion = true in a fully successful concrete run. -/
theorem completion_flag_policy_witness :
    (handleEvent
      ⟨⟨fun _ => .error "404", .ok [], fun n _ => .ok ⟨"9", n, "p", []⟩,
          fun _ _ => .ok (), .ok none, .ok none, .ok []⟩,
        .ok ⟨"task", [], "md"⟩, .ok "perm", fun _ => .ok "done"⟩
      ⟨"P", "", "", "", "", ""⟩ "issues"
      ⟨some ⟨"https://u", "closed", "alice"⟩, none, "r", "closed", none⟩).2 =
    some ("closed" == "closed") :=
  (completion_flag_policy
      ⟨⟨fun _ => .error "404", .ok [], fun n _ => .ok ⟨"9", n, "p", []⟩,
          fun _ _ => .ok (), .ok none, .ok none, .ok []⟩,
        .ok ⟨"task", [], "md"⟩, .ok "perm", fun _ => .ok "done"⟩
      ⟨"P", "", "", "", "", ""⟩
      ⟨some ⟨"https://u", "closed", "alice"⟩, none, "r", "closed", none⟩).1
    ⟨"https://u", "closed", "alice"⟩ ⟨"processed", "closed", "done", "9"⟩
    rfl (by decide)

/-! ## C2 — bounded blind retry with backoff -/

/-- C2.  The coordinator runs the attempt body at most 3 times; when
the surfaced outcome is an error, exactly 3 attempts ran, the waits
between them were 5000 ms then 10000 ms, the surfaced error is the
third attempt's own outcome, and the persisted cached task gid is
unchanged (it is written only after a successful attempt). -/
theorem coordinator_retry_policy
    (worlds : Nat → SyncWorld) (env : Env) (eventType : String)
    (payload : Payload) (cached : Option String) :
    (issueCoordinatorHandleEvent worlds env eventType payload cached).invocations ≤ 3 ∧
    (∀ e, (issueCoordinatorHandleEvent worlds env eventType payload cached).outcome =
        .error e →
      (issueCoordinatorHandleEvent worlds env eventType payload cached).invocations = 3 ∧
      (issueCoordinatorHandleEvent worlds env eventType payload cached).delays =
        [5000, 10000] ∧
      (issueCoordinatorHandleEvent worlds env eventType payload cached).outcome =
        coordinatorAttempt worlds env eventType payload cached 2 ∧
      (issueCoordinatorHandleEvent worlds env eventType payload cached).finalCachedTaskGid =
        cached) := by
  cases h0 : coordinatorAttempt worlds env eventType payload cached 0 with
  | ok r0 =>
    constructor
    · simp [issueCoordinatorHandleEvent, coordinatorLoop, h0]
    · intro e he
      simp [issueCoordinatorHandleEvent, coordinatorLoop, h0] at he
  | error e0 =>
    cases h1 : coordinatorAttempt worlds env eventType payload cached 1 with
    | ok r1 =>
      constructor
      · simp [issueCoordinatorHandleEvent, coordinatorLoop, h0, h1]
      · intro e he
        simp [issueCoordinatorHandleEvent, coordinatorLoop, h0, h1] at he
    | error e1 =>
      cases h2 : coordinatorAttempt worlds env eventType payload cached 2 with
      | ok r2 =>
        constructor
        · simp [issueCoordinatorHandleEvent, coordinatorLoop, h0, h1, h2]
        · intro e he
          simp [issueCoordinatorHandleEvent, coordinatorLoop, h0, h1, h2] at he
      | error e2 =>
        constructor
        · simp [issueCoordinatorHandleEvent, coordinatorLoop, h0, h1, h2]
        · intro e he
          refine ⟨?_, ?_, ?_, ?_⟩ <;>
            simp [issueCoordinatorHandleEvent, coordinatorLoop, h0, h1, h2, retryDelays]

/-- C2 witness: a malformed event (no issue URL) fails all three
attempts; the surfaced error is the third attempt's, 5 s and 10 s
were waited, and the cached gid is untouched. -/
theorem coordinator_retry_policy_witness :
    (issueCoordinatorHandleEvent
      (fun _ => ⟨⟨fun _ => .error "x", .ok [], fun n _ => .ok ⟨"1", n, "", []⟩,
          fun _ _ => .ok (), .ok none, .ok none, .ok []⟩,
        .ok ⟨"t", [], "m"⟩, .ok "p", fun _ => .ok "d"⟩)
      ⟨"P", "", "", "", "", ""⟩ "issues" ⟨none, none, "r", "opened", none⟩
      none).invocations = 3 ∧
    (issueCoordinatorHandleEvent
      (fun _ => ⟨⟨fun _ => .error "x", .ok [], fun n _ => .ok ⟨"1", n, "", []⟩,
          fun _ _ => .ok (), .ok none, .ok none, .ok []⟩,
        .ok ⟨"t", [], "m"⟩, .ok "p", fun _ => .ok "d"⟩)
      ⟨"P", "", "", "", "", ""⟩ "issues" ⟨none, none, "r", "opened", none⟩
      none).delays = [5000, 10000] ∧
    (issueCoordinatorHandleEvent
      (fun _ => ⟨⟨fun _ => .error "x", .ok [], fun n _ => .ok ⟨"1", n, "", []⟩,
          fun _ _ => .ok (), .ok none, .ok none, .ok []⟩,
        .ok ⟨"t", [], "m"⟩, .ok "p", fun _ => .ok "d"⟩)
      ⟨"P", "", "", "", "", ""⟩ "issues" ⟨none, none, "r", "opened", none⟩
      none).outcome =
      coordinatorAttempt
        (fun _ => ⟨⟨fun _ => .error "x", .ok [], fun n _ => .ok ⟨"1", n, "", []⟩,
            fun _ _ => .ok (), .ok none, .ok none, .ok []⟩,
          .ok ⟨"t", [], "m"⟩, .ok "p", fun _ => .ok "d"⟩)
        ⟨"P", "", "", "", "", ""⟩ "issues" ⟨none, none, "r", "opened", none⟩ none 2 ∧
    (issueCoordinatorHandleEvent
      (fun _ => ⟨⟨fun _ => .error "x", .ok [], fun n _ => .ok ⟨"1", n, "", []⟩,
          fun _ _ => .ok (), .ok none, .ok none, .ok []⟩,
        .ok ⟨"t", [], "m"⟩, .ok "p", fun _ => .ok "d"⟩)
      ⟨"P", "", "", "", "", ""⟩ "issues" ⟨none, none, "r", "opened", none⟩
      none).finalCachedTaskGid = none :=
  (coordinator_retry_policy
      (fun _ => ⟨⟨fun _ => .error "x", .ok [], fun n _ => .ok ⟨"1", n, "", []⟩,
          fun _ _ => .ok (), .ok none, .ok none, .ok []⟩,
        .ok ⟨"t", [], "m"⟩, .ok "p", fun _ => .ok "d"⟩)
      ⟨"P", "", "", "", "", ""⟩ "issues" ⟨none, none, "r", "opened", none⟩ none).2
    "Unable to find GitHub issue URL" (by decide)

/-! ## C4 — the missing-project-id error is, in fact, retried -/

/-- C4 (counterexample).  With `ASANA_PROJECT_ID` unset, the
`IssueSync` constructor throws inside the retry loop's `try`, so the
configuration error is retried like any other failure: 3 attempts
run (not 1) with the 5 s/10 s waits before the error surfaces —
refuting "that failure is never retried by the coordinator's backoff
loop". -/
theorem config_error_retried_counterexample :
    (issueCoordinatorHandleEvent
      (fun _ => ⟨⟨fun _ => .error "x", .ok [], fun n _ => .ok ⟨"1", n, "", []⟩,
          fun _ _ => .ok (), .ok none, .ok none, .ok []⟩,
        .ok ⟨"t", [], "m"⟩, .ok "p", fun _ => .ok "d"⟩)
      ⟨"", "", "", "", "", ""⟩ "issues"
      ⟨some ⟨"https://u", "open", "alice"⟩, none, "r", "opened", none⟩
      none).invocations = 3 ∧
    (issueCoordinatorHandleEvent
      (fun _ => ⟨⟨fun _ => .error "x", .ok [], fun n _ => .ok ⟨"1", n, "", []⟩,
          fun _ _ => .ok (), .ok none, .ok none, .ok []⟩,
        .ok ⟨"t", [], "m"⟩, .ok "p", fun _ => .ok "d"⟩)
      ⟨"", "", "", "", "", ""⟩ "issues"
      ⟨some ⟨"https://u", "open", "alice"⟩, none, "r", "opened", none⟩
      none).delays = [5000, 10000] ∧
    (issueCoordinatorHandleEvent
      (fun _ => ⟨⟨fun _ => .error "x", .ok [], fun n _ => .ok ⟨"1", n, "", []⟩,
          fun _ _ => .ok (), .ok none, .ok none, .ok []⟩,
        .ok ⟨"t", [], "m"⟩, .ok "p", fun _ => .ok "d"⟩)
      ⟨"", "", "", "", "", ""⟩ "issues"
      ⟨some ⟨"https://u", "open", "alice"⟩, none, "r", "opened", none⟩
      none).outcome = .error "ASANA_PROJECT_ID environment variable is required" := by
  refine ⟨?_, ?_, ?_⟩ <;> decide

/-- C4 (amended).  Without a configured project id, processing fails
at first use with the constructor's error, but the failure is
retried blindly like any other: the coordinator consumes all 3
attempts (waiting 5 s then 10 s), then surfaces the configuration
error, leaving the cached task gid unchanged. -/
theorem config_error_fails_after_blind_retries
    (worlds : Nat → SyncWorld) (env : Env) (eventType : String)
    (payload : Payload) (cached : Option String)
    (hcfg : jsTruthy env.ASANA_PROJECT_ID = false) :
    (issueCoordinatorHandleEvent worlds env eventType payload cached).outcome =
      .error "ASANA_PROJECT_ID environment variable is required" ∧
    (issueCoordinatorHandleEvent worlds env eventType payload cached).invocations = 3 ∧
    (issueCoordinatorHandleEvent worlds env eventType payload cached).delays =
      [5000, 10000] ∧
    (issueCoordinatorHandleEvent worlds env eventType payload cached).finalCachedTaskGid =
      cached := by
  have ha : ∀ i, coordinatorAttempt worlds env eventType payload cached i =
      .error "ASANA_PROJECT_ID environment variable is required" := by
    intro i
    simp [coordinatorAttempt, hcfg]
  refine ⟨?_, ?_, ?_, ?_⟩ <;>
    simp [issueCoordinatorHandleEvent, coordinatorLoop, ha, retryDelays]

/-- C4 witness: the amended behaviour at a concrete unset
environment. -/
theorem config_error_fails_after_blind_retries_witness :
    (issueCoordinatorHandleEvent
      (fun _ => ⟨⟨fun _ => .error "x", .ok [], fun n _ => .ok ⟨"1", n, "", []⟩,
          fun _ _ => .ok (), .ok none, .ok none, .ok []⟩,
        .ok ⟨"t", [], "m"⟩, .ok "p", fun _ => .ok "d"⟩)
      ⟨"", "F1", "F2", "F3", "F4", "F5"⟩ "pull_request"
      ⟨none, some ⟨"https://u", "open", "bob"⟩, "r", "opened", none⟩
      (some "7")).outcome =
      .error "ASANA_PROJECT_ID environment variable is required" ∧
    (issueCoordinatorHandleEvent
      (fun _ => ⟨⟨fun _ => .error "x", .ok [], fun n _ => .ok ⟨"1", n, "", []⟩,
          fun _ _ => .ok (), .ok none, .ok none, .ok []⟩,
        .ok ⟨"t", [], "m"⟩, .ok "p", fun _ => .ok "d"⟩)
      ⟨"", "F1", "F2", "F3", "F4", "F5"⟩ "pull_request"
      ⟨none, some ⟨"https://u", "open", "bob"⟩, "r", "opened", none⟩
      (some "7")).invocations = 3 ∧
    (issueCoordinatorHandleEvent
      (fun _ => ⟨⟨fun _ => .error "x", .ok [], fun n _ => .ok ⟨"1", n, "", []⟩,
          fun _ _ => .ok (), .ok none, .ok none, .ok []⟩,
        .ok ⟨"t", [], "m"⟩, .ok "p", fun _ => .ok "d"⟩)
      ⟨"", "F1", "F2", "F3", "F4", "F5"⟩ "pull_request"
      ⟨none, some ⟨"https://u", "open", "bob"⟩, "r", "opened", none⟩
      (some "7")).delays = [5000, 10000] ∧
    (issueCoordinatorHandleEvent
      (fun _ => ⟨⟨fun _ => .error "x", .ok [], fun n _ => .ok ⟨"1", n, "", []⟩,
          fun _ _ => .ok (), .ok none, .ok none, .ok []⟩,
        .ok ⟨"t", [], "m"⟩, .ok "p", fun _ => .ok "d"⟩)
      ⟨"", "F1", "F2", "F3", "F4", "F5"⟩ "pull_request"
      ⟨none, some ⟨"https://u", "open", "bob"⟩, "r", "opened", none⟩
      (some "7")).finalCachedTaskGid = some "7" :=
  config_error_fails_after_blind_retries
    (fun _ => ⟨⟨fun _ => .error "x", .ok [], fun n _ => .ok ⟨"1", n, "", []⟩,
        fun _ _ => .ok (), .ok none, .ok none, .ok []⟩,
      .ok ⟨"t", [], "m"⟩, .ok "p", fun _ => .ok "d"⟩)
    ⟨"", "F1", "F2", "F3", "F4", "F5"⟩ "pull_request"
    ⟨none, some ⟨"https://u", "open", "bob"⟩, "r", "opened", none⟩
    (some "7") (by decide)

/-! ## C6 — a hard line break leaves a `<br />` tag in the output -/

set_option maxRecDepth 100000 in
/-- C6 (code evaluated at the failing input).  For the markdown
`"foo  \nbar"` (a hard line break), the CommonMark renderer emits
`<p>foo<br />\nbar</p>`; the cleanup regex `/<br>\s*/g` matches only
the literal `<br>`, so the self-closing `<br />` survives into the
final rendered output — contradicting both the claim and the file's
own comment that any `<p>`/`<br>` tag must be gone. -/
theorem hard_break_br_tag_survives :
    cleanRenderedHtml "<p>foo<br />\nbar</p>" = "<body>foo<br />\nbar</body>" ∧
    (findSplit (cleanRenderedHtml "<p>foo<br />\nbar</p>").data "<br />".data).isSome
      = true := by
  constructor
  · decide
  · decide

/-! ## C7 — table flattening aligns the column separators

The verification-side vocabulary: `pipePositions` lists the
character offsets of `'|'` in a line; `midPipes`, `joinLen` and
`rowPipes` give the offsets a formatted line must have when its
padded cell widths are `ws`. -/

/-- Character offsets of `'|'` in a character list. -/
def pipePositions : List Char → List Nat
  | [] => []
  | c :: cs =>
    if c = '|' then 0 :: (pipePositions cs).map (· + 1)
    else (pipePositions cs).map (· + 1)

/-- Offsets of the inner `'|'` separators of cells of widths `ws`
joined by `' | '`. -/
def midPipes : List Nat → List Nat
  | [] => []
  | [_] => []
  | w :: w2 :: ws => (w + 1) :: (midPipes (w2 :: ws)).map (· + (w + 3))

/-- Length of cells of widths `ws` joined by `' | '`. -/
def joinLen : List Nat → Nat
  | [] => 0
  | [w] => w
  | w :: w2 :: ws => w + 3 + joinLen (w2 :: ws)

/-- All `'|'` offsets of a formatted table line whose padded cell
widths are `ws` — the leading pipe, the inner separators, and the
trailing pipe. -/
def rowPipes (ws : List Nat) : List Nat :=
  0 :: (midPipes ws ++ [joinLen ws + 1]).map (· + 2)

theorem map_add_add (l : List Nat) (a b : Nat) :
    (l.map (· + a)).map (· + b) = l.map (· + (a + b)) := by
  rw [List.map_map]
  apply List.map_congr_left
  intro x _
  simp only [Function.comp]
  omega

theorem pipePositions_append (a b : List Char) :
    pipePositions (a ++ b) = pipePositions a ++ (pipePositions b).map (· + a.length) := by
  induction a with
  | nil => simp [pipePositions]
  | cons c cs ih =>
    by_cases h : c = '|' <;>
      simp [pipePositions, h, ih, List.map_append, map_add_add]

theorem pipePositions_of_pipeFree (l : List Char) (h : ∀ ch ∈ l, ch ≠ '|') :
    pipePositions l = [] := by
  induction l with
  | nil => rfl
  | cons c cs ih =>
    have hc : ¬ c = '|' := h c (by simp)
    simp [pipePositions, hc, ih fun ch hm => h ch (by simp [hm])]

theorem string_data_append (a b : String) : (a ++ b).data = a.data ++ b.data := rfl

theorem padEnd_data (s : String) (n : Nat) :
    (padEnd s n).data = s.data ++ List.replicate (n - s.length) ' ' := rfl

theorem string_length_data (s : String) : s.length = s.data.length := rfl

theorem string_length_append (a b : String) :
    (a ++ b).length = a.length + b.length := by
  have h : (a ++ b).data = a.data ++ b.data := rfl
  rw [string_length_data, h, List.length_append, ← string_length_data,
    ← string_length_data]

theorem padEnd_length (s : String) (n : Nat) (h : s.length ≤ n) :
    (padEnd s n).length = n := by
  have h1 : (padEnd s n).data.length = s.data.length + (n - s.length) := by
    rw [padEnd_data, List.length_append, List.length_replicate]
  have h2 : s.length = s.data.length := rfl
  have h3 : (padEnd s n).length = (padEnd s n).data.length := rfl
  omega

theorem padEnd_pipeFree (s : String) (n : Nat)
    (h : ∀ ch ∈ s.data, ch ≠ '|') :
    ∀ ch ∈ (padEnd s n).data, ch ≠ '|' := by
  intro ch hm
  rw [padEnd_data] at hm
  rcases List.mem_append.mp hm with h1 | h2
  · exact h ch h1
  · have := List.eq_of_mem_replicate h2
    subst this
    decide

theorem joinSep_length (cells : List String) :
    (joinSep " | " cells).length = joinLen (cells.map String.length) := by
  induction cells with
  | nil => rfl
  | cons c rest ih =>
    cases rest with
    | nil => simp [joinSep, joinLen]
    | cons c2 rest2 =>
      have hj : joinSep " | " (c :: c2 :: rest2) =
          c ++ " | " ++ joinSep " | " (c2 :: rest2) := rfl
      rw [hj, string_length_append, string_length_append, ih]
      have h3 : (" | " : String).length = 3 := rfl
      simp only [List.map_cons, joinLen]
      omega

theorem pipePositions_joinSep (cells : List String)
    (hpf : ∀ c ∈ cells, ∀ ch ∈ c.data, ch ≠ '|') :
    pipePositions (joinSep " | " cells).data = midPipes (cells.map String.length) := by
  induction cells with
  | nil => rfl
  | cons c rest ih =>
    cases rest with
    | nil =>
      simp [joinSep, midPipes, pipePositions_of_pipeFree c.data (hpf c (by simp))]
    | cons c2 rest2 =>
      have hrest : ∀ x ∈ c2 :: rest2, ∀ ch ∈ x.data, ch ≠ '|' :=
        fun x hx => hpf x (by simp [hx])
      have hdata : (joinSep " | " (c :: c2 :: rest2)).data =
          c.data ++ ([' ', '|', ' '] ++ (joinSep " | " (c2 :: rest2)).data) := by
        simp [joinSep, string_data_append]
      rw [hdata, pipePositions_append,
        pipePositions_of_pipeFree c.data (hpf c (by simp)),
        pipePositions_append, ih hrest]
      have hsp : pipePositions [' ', '|', ' '] = [1] := by decide
      rw [hsp]
      have hc : c.data.length = c.length := rfl
      simp only [List.nil_append, List.map_append, List.map_cons, List.map_nil,
        List.length_cons, List.length_nil, List.map_map, List.singleton_append,
        midPipes, hc]
      congr 1
      · omega
      · apply List.map_congr_left
        intro x _
        simp only [Function.comp]
        omega

theorem pipePositions_wrapped (cells : List String)
    (hpf : ∀ c ∈ cells, ∀ ch ∈ c.data, ch ≠ '|') :
    pipePositions ("| " ++ joinSep " | " cells ++ " |").data =
      rowPipes (cells.map String.length) := by
  have hdata : ("| " ++ joinSep " | " cells ++ " |").data =
      ['|', ' '] ++ ((joinSep " | " cells).data ++ [' ', '|']) := by
    simp [string_data_append]
  rw [hdata, pipePositions_append, pipePositions_append,
    pipePositions_joinSep cells hpf]
  have h1 : pipePositions ['|', ' '] = [0] := by decide
  have h2 : pipePositions [' ', '|'] = [1] := by decide
  rw [h1, h2]
  have hlen : (joinSep " | " cells).data.length = joinLen (cells.map String.length) := by
    rw [← string_length_data, joinSep_length]
  simp only [rowPipes, List.map_append, List.map_cons, List.map_nil,
    List.cons_append, List.nil_append, hlen, List.length_cons, List.length_nil]
  have hmap : (fun x : Nat => x + (0 + 1 + 1)) = (fun x : Nat => x + 2) := by
    funext x
    omega
  have hnum : 1 + joinLen (List.map String.length cells) + (0 + 1 + 1) =
      joinLen (List.map String.length cells) + 1 + 2 := by omega
  rw [hmap, hnum]

theorem updWidths_getD (row : List String) (ws : List Nat) (j : Nat) :
    (updWidths ws row).getD j 0 = max (ws.getD j 0) ((row.getD j "").length) := by
  induction row generalizing ws j with
  | nil => simp [updWidths]
  | cons c cs ih =>
    cases ws with
    | nil =>
      cases j with
      | zero => simp [updWidths]
      | succ j =>
        have e1 : updWidths [] (c :: cs) = c.length :: updWidths [] cs := rfl
        rw [e1, List.getD_cons_succ, List.getD_cons_succ, ih]
        rfl
    | cons w wsr =>
      cases j with
      | zero => simp [updWidths]
      | succ j =>
        have e1 : updWidths (w :: wsr) (c :: cs) =
            max w c.length :: updWidths wsr cs := rfl
        rw [e1, List.getD_cons_succ, List.getD_cons_succ, List.getD_cons_succ, ih]

theorem columnWidths_foldl_getD (rows : List (List String)) (init : List Nat) (j : Nat) :
    (rows.foldl updWidths init).getD j 0 =
      rows.foldl (fun m r => max m ((r.getD j "").length)) (init.getD j 0) := by
  induction rows generalizing init with
  | nil => rfl
  | cons r rest ih =>
    rw [List.foldl_cons, List.foldl_cons, ih, updWidths_getD]

theorem columnWidths_getD (rows : List (List String)) (j : Nat) :
    (columnWidthsOf rows).getD j 0 =
      rows.foldl (fun m r => max m ((r.getD j "").length)) 0 := by
  have h := columnWidths_foldl_getD rows [] j
  simpa [columnWidthsOf] using h

theorem foldl_max_init_le (rows : List (List String)) (j : Nat) :
    ∀ m, m ≤ rows.foldl (fun m r => max m ((r.getD j "").length)) m := by
  induction rows with
  | nil => intro m; exact Nat.le_refl m
  | cons r rest ih =>
    intro m
    simp only [List.foldl_cons]
    exact Nat.le_trans (Nat.le_max_left _ _) (ih _)

theorem cell_le_foldl_max (rows : List (List String)) (j : Nat) :
    ∀ m, ∀ r ∈ rows,
      ((r.getD j "").length) ≤ rows.foldl (fun m r => max m ((r.getD j "").length)) m := by
  induction rows with
  | nil => intro m r hr; cases hr
  | cons r0 rest ih =>
    intro m r hr
    simp only [List.foldl_cons]
    rcases List.mem_cons.mp hr with rfl | hmem
    · exact Nat.le_trans (Nat.le_max_right _ _) (foldl_max_init_le rest j _)
    · exact ih _ r hmem

theorem updWidths_length (row : List String) (ws : List Nat) :
    (updWidths ws row).length = max ws.length row.length := by
  induction row generalizing ws with
  | nil => simp [updWidths]
  | cons c cs ih =>
    cases ws with
    | nil =>
      simp [updWidths, ih]
    | cons w wsr =>
      simp [updWidths, ih]
      omega

theorem columnWidths_foldl_length (n : Nat) :
    ∀ (rows : List (List String)) (init : List Nat),
      (∀ r ∈ rows, r.length = n) → init.length ≤ n → rows ≠ [] →
      (rows.foldl updWidths init).length = n := by
  intro rows
  induction rows with
  | nil => intro init _ _ h; exact absurd rfl h
  | cons r rest ih =>
    intro init hlen hinit _
    simp only [List.foldl_cons]
    have hr : r.length = n := hlen r (by simp)
    have hupd : (updWidths init r).length = n := by
      rw [updWidths_length]
      omega
    cases rest with
    | nil => simpa using hupd
    | cons r2 rest2 =>
      exact ih (updWidths init r) (fun x hx => hlen x (List.mem_cons_of_mem r hx))
        (by omega) (by simp)

theorem columnWidthsOf_length (rows : List (List String)) (n : Nat)
    (hne : rows ≠ []) (hlen : ∀ r ∈ rows, r.length = n) :
    (columnWidthsOf rows).length = n :=
  columnWidths_foldl_length n rows [] hlen (by simp) hne

theorem formatRowCells_lengths :
    ∀ (row : List String) (ws : List Nat), row.length = ws.length →
      (∀ j, ((row.getD j "").length) ≤ ws.getD j 0) →
      (formatRowCells ws row).map String.length = ws := by
  intro row
  induction row with
  | nil =>
    intro ws h _
    cases ws with
    | nil => rfl
    | cons w wsr => simp at h
  | cons c cs ih =>
    intro ws h hle
    cases ws with
    | nil => simp at h
    | cons w wsr =>
      simp only [formatRowCells, List.mapIdx_cons, List.map_cons]
      congr 1
      · have h0 := hle 0
        simp only [List.getD_cons_zero] at h0
        exact padEnd_length c w h0
      · have hfn : (cs.mapIdx fun i cell => padEnd cell ((w :: wsr).getD (i + 1) 0)) =
            formatRowCells wsr cs := by
          simp only [formatRowCells, List.getD_cons_succ]
        rw [hfn]
        exact ih wsr (by simpa using h)
          fun j => by simpa [List.getD_cons_succ] using hle (j + 1)

theorem formatRowCells_pipeFree :
    ∀ (row : List String) (ws : List Nat),
      (∀ c ∈ row, ∀ ch ∈ c.data, ch ≠ '|') →
      ∀ c' ∈ formatRowCells ws row, ∀ ch ∈ c'.data, ch ≠ '|' := by
  intro row
  induction row with
  | nil =>
    intro ws _ c' hc'
    simp [formatRowCells] at hc'
  | cons c cs ih =>
    intro ws hpf c' hc'
    simp only [formatRowCells, List.mapIdx_cons] at hc'
    rcases List.mem_cons.mp hc' with rfl | hmem
    · exact padEnd_pipeFree c _ (hpf c (by simp))
    · have hfn : (cs.mapIdx fun i cell => padEnd cell (ws.getD (i + 1) 0)) =
          formatRowCells ws.tail cs := by
        simp only [formatRowCells]
        congr 1
        funext i cell
        cases ws <;> simp [List.getD_cons_succ]
      rw [hfn] at hmem
      exact ih ws.tail (fun x hx => hpf x (by simp [hx])) c' hmem

theorem sepJoin_pipes : ∀ ws : List Nat,
    pipePositions (joinSep "|"
      (ws.map fun w => String.mk (List.replicate (w + 2) '-'))).data =
      (midPipes ws).map (· + 1) := by
  intro ws
  induction ws with
  | nil => rfl
  | cons w rest ih =>
    cases rest with
    | nil =>
      simp only [List.map_cons, List.map_nil, joinSep, midPipes]
      apply pipePositions_of_pipeFree
      intro ch hm
      have hrep : ch ∈ List.replicate (w + 2) '-' := hm
      have := List.eq_of_mem_replicate hrep
      subst this
      decide
    | cons w2 rest2 =>
      have hdata : (joinSep "|"
          ((w :: w2 :: rest2).map fun w => String.mk (List.replicate (w + 2) '-'))).data =
          List.replicate (w + 2) '-' ++
            ('|' :: (joinSep "|"
              ((w2 :: rest2).map fun w => String.mk (List.replicate (w + 2) '-'))).data) := by
        simp [joinSep, string_data_append]
      rw [hdata, pipePositions_append]
      have hrepfree : pipePositions (List.replicate (w + 2) '-') = [] := by
        apply pipePositions_of_pipeFree
        intro ch hm
        have := List.eq_of_mem_replicate hm
        subst this
        decide
      rw [hrepfree]
      have hpipe : pipePositions
          ('|' :: (joinSep "|"
            ((w2 :: rest2).map fun w => String.mk (List.replicate (w + 2) '-'))).data) =
          0 :: (pipePositions (joinSep "|"
            ((w2 :: rest2).map fun w => String.mk (List.replicate (w + 2) '-'))).data).map
            (· + 1) := by
        simp [pipePositions]
      rw [hpipe, ih]
      simp only [List.nil_append, List.map_cons, List.length_replicate, midPipes,
        List.map_map]
      congr 1
      · omega
      · apply List.map_congr_left
        intro x _
        simp only [Function.comp]
        omega

theorem sepJoin_length : ∀ (w : Nat) (rest : List Nat),
    (joinSep "|" ((w :: rest).map fun w => String.mk (List.replicate (w + 2) '-'))).length =
      joinLen (w :: rest) + 2 := by
  intro w rest
  induction rest generalizing w with
  | nil =>
    show (String.mk (List.replicate (w + 2) '-')).length = w + 2
    simp [string_length_data]
  | cons w2 rest2 ih =>
    have hj : joinSep "|" ((w :: w2 :: rest2).map fun w => String.mk (List.replicate (w + 2) '-')) =
        String.mk (List.replicate (w + 2) '-') ++ "|" ++
          joinSep "|" ((w2 :: rest2).map fun w => String.mk (List.replicate (w + 2) '-')) := rfl
    rw [hj, string_length_append, string_length_append, ih w2]
    have h1 : (String.mk (List.replicate (w + 2) '-')).length = w + 2 := by
      simp [string_length_data]
    have h2 : ("|" : String).length = 1 := rfl
    simp only [joinLen]
    omega

theorem pipePositions_separatorLine (ws : List Nat) (hne : ws ≠ []) :
    pipePositions (separatorLine ws).data = rowPipes ws := by
  obtain ⟨w, rest, rfl⟩ : ∃ w rest, ws = w :: rest := by
    cases ws with
    | nil => exact absurd rfl hne
    | cons w rest => exact ⟨w, rest, rfl⟩
  have hdata : (separatorLine (w :: rest)).data =
      '|' :: ((joinSep "|"
        ((w :: rest).map fun w => String.mk (List.replicate (w + 2) '-'))).data ++ ['|']) := by
    simp [separatorLine, string_data_append]
  rw [hdata]
  have hstep : pipePositions
      ('|' :: ((joinSep "|"
        ((w :: rest).map fun w => String.mk (List.replicate (w + 2) '-'))).data ++ ['|'])) =
      0 :: (pipePositions ((joinSep "|"
        ((w :: rest).map fun w => String.mk (List.replicate (w + 2) '-'))).data ++ ['|'])).map
        (· + 1) := by
    simp [pipePositions]
  rw [hstep, pipePositions_append, sepJoin_pipes]
  have hlast : pipePositions ['|'] = [0] := by decide
  rw [hlast]
  have hlen : (joinSep "|"
      ((w :: rest).map fun w => String.mk (List.replicate (w + 2) '-'))).data.length =
      joinLen (w :: rest) + 2 := by
    rw [← string_length_data, sepJoin_length]
  rw [hlen]
  simp only [rowPipes, List.map_append, List.map_cons, List.map_nil, List.map_map]
  congr 1
  congr 1
  simp only [List.cons.injEq, and_true]
  omega

theorem mapIdx_shift_eq_map {α β : Type} (f : α → β) :
    ∀ (l : List α) (g : Nat → α → β), (∀ i a, g i a = f a) →
      l.mapIdx g = l.map f := by
  intro l
  induction l with
  | nil => intro g _; rfl
  | cons a t ih =>
    intro g hg
    rw [List.mapIdx_cons, hg, List.map_cons,
      ih (fun i => g (i + 1)) fun i a => hg (i + 1) a]

theorem formatTableRows_cons (r0 : List String) (rest : List (List String)) :
    formatTableRows (r0 :: rest) =
      if rest.isEmpty then formattedRow (columnWidthsOf (r0 :: rest)) r0
      else formattedRow (columnWidthsOf (r0 :: rest)) r0 ++ "\n" ++
        separatorLine (columnWidthsOf (r0 :: rest)) ++ "\n" ++
        joinSep "\n" (rest.map (formattedRow (columnWidthsOf (r0 :: rest)))) := by
  cases rest with
  | nil => simp [formatTableRows, List.mapIdx_cons, joinSep]
  | cons r1 rest1 =>
    have hlen2 : 1 < (r0 :: r1 :: rest1).length := by
      simp only [List.length_cons]
      omega
    have hfull : (r0 :: r1 :: rest1).mapIdx
        (fun i row =>
          if i = 0 ∧ 1 < (r0 :: r1 :: rest1).length then
            formattedRow (columnWidthsOf (r0 :: r1 :: rest1)) row ++ "\n" ++
              separatorLine (columnWidthsOf (r0 :: r1 :: rest1))
          else formattedRow (columnWidthsOf (r0 :: r1 :: rest1)) row) =
        (formattedRow (columnWidthsOf (r0 :: r1 :: rest1)) r0 ++ "\n" ++
          separatorLine (columnWidthsOf (r0 :: r1 :: rest1))) ::
          (r1 :: rest1).map (formattedRow (columnWidthsOf (r0 :: r1 :: rest1))) := by
      rw [List.mapIdx_cons]
      congr 1
      · rw [if_pos (And.intro rfl hlen2)]
      · apply mapIdx_shift_eq_map
        intro i a
        have hne0 : ¬ (i + 1 = 0 ∧ 1 < (r0 :: r1 :: rest1).length) := by
          intro h
          exact Nat.succ_ne_zero i h.1
        rw [if_neg hne0]
    simp only [formatTableRows, List.isEmpty_cons, Bool.false_eq_true, if_false]
    rw [hfull]
    rfl

/-- C7.  For a nonempty table whose rows all have the same positive
number of cells and whose cell texts contain no `'|'` (the shape a
GFM table yields): the column widths are the running maxima of the
rendered cell widths; every padded cell has exactly its column's
width; the output is the formatted rows joined by newlines with the
dash separator rule inserted right after the header row exactly when
the table has more than one row; and the `'|'` column separators sit
at the same character offsets (`rowPipes`) in every formatted row
and in the separator line — byte-for-byte alignment. -/
theorem table_flatten_alignment
    (rows : List (List String)) (n : Nat)
    (hne : rows ≠ []) (hn : 0 < n)
    (hlen : ∀ r ∈ rows, r.length = n)
    (hpf : ∀ r ∈ rows, ∀ c ∈ r, ∀ ch ∈ c.data, ch ≠ '|') :
    (∀ j, (columnWidthsOf rows).getD j 0 =
      rows.foldl (fun m r => max m ((r.getD j "").length)) 0) ∧
    (∀ r ∈ rows, (formatRowCells (columnWidthsOf rows) r).map String.length =
      columnWidthsOf rows) ∧
    (∀ r0 rest, rows = r0 :: rest →
      formatTableRows rows =
        (if rest.isEmpty then formattedRow (columnWidthsOf rows) r0
         else formattedRow (columnWidthsOf rows) r0 ++ "\n" ++
           separatorLine (columnWidthsOf rows) ++ "\n" ++
           joinSep "\n" (rest.map (formattedRow (columnWidthsOf rows))))) ∧
    (∀ r ∈ rows, pipePositions (formattedRow (columnWidthsOf rows) r).data =
      rowPipes (columnWidthsOf rows)) ∧
    pipePositions (separatorLine (columnWidthsOf rows)).data =
      rowPipes (columnWidthsOf rows) := by
  have hw : (columnWidthsOf rows).length = n := columnWidthsOf_length rows n hne hlen
  have hbound : ∀ r ∈ rows, ∀ j,
      ((r.getD j "").length) ≤ (columnWidthsOf rows).getD j 0 := by
    intro r hr j
    rw [columnWidths_getD]
    exact cell_le_foldl_max rows j 0 r hr
  have hpad : ∀ r ∈ rows,
      (formatRowCells (columnWidthsOf rows) r).map String.length =
        columnWidthsOf rows := by
    intro r hr
    exact formatRowCells_lengths r (columnWidthsOf rows)
      (by rw [hlen r hr, hw]) (hbound r hr)
  refine ⟨fun j => columnWidths_getD rows j, hpad, ?_, ?_, ?_⟩
  · intro r0 rest hrows
    subst hrows
    exact formatTableRows_cons r0 rest
  · intro r hr
    have hcpf := formatRowCells_pipeFree r (columnWidthsOf rows) (hpf r hr)
    have hwrap := pipePositions_wrapped (formatRowCells (columnWidthsOf rows) r) hcpf
    rw [hpad r hr] at hwrap
    exact hwrap
  · apply pipePositions_separatorLine
    intro hnil
    rw [hnil] at hw
    simp at hw
    omega

/-- C7 witness: the two-row table `[["a","bb"],["ccc","d"]]` — the
output is header, dash rule, data row, and the separator line's
pipes sit at the computed row offsets. -/
theorem table_flatten_alignment_witness :
    formatTableRows [["a", "bb"], ["ccc", "d"]] =
      (if ([["ccc", "d"]] : List (List String)).isEmpty then
        formattedRow (columnWidthsOf [["a", "bb"], ["ccc", "d"]]) ["a", "bb"]
       else formattedRow (columnWidthsOf [["a", "bb"], ["ccc", "d"]]) ["a", "bb"] ++ "\n" ++
         separatorLine (columnWidthsOf [["a", "bb"], ["ccc", "d"]]) ++ "\n" ++
         joinSep "\n" ([["ccc", "d"]].map
           (formattedRow (columnWidthsOf [["a", "bb"], ["ccc", "d"]])))) ∧
    pipePositions (separatorLine (columnWidthsOf [["a", "bb"], ["ccc", "d"]])).data =
      rowPipes (columnWidthsOf [["a", "bb"], ["ccc", "d"]]) :=
  ⟨(table_flatten_alignment [["a", "bb"], ["ccc", "d"]] 2 (by decide) (by decide)
      (by decide) (by decide)).2.2.1 ["a", "bb"] [["ccc", "d"]] rfl,
   (table_flatten_alignment [["a", "bb"], ["ccc", "d"]] 2 (by decide) (by decide)
      (by decide) (by decide)).2.2.2.2⟩

end GhAsanaSync
